import Mathlib

/-!
Shallow embedding of the real-time vehicle perception pipeline of
`Stop-Super-Speeders`:

* `utils/speed_estimator.py` — `SpeedEstimator.estimate_speed`;
* `utils/vehicle_tracker.py` — `CentroidTracker.update` and friends;
* `cv_detector_realtime.py` — `pick_violation_code` and
  `TrafficDetector.process_frame` (per-vehicle state, plate acquisition,
  one-shot violation emission, session cap).

Python floats are modelled by `ℚ` (exact arithmetic) except where the code
takes a square root, where `ℝ` is used.  Python dicts keyed by vehicle id
are modelled as total functions `ℕ → VehicleState` (the code lazily inserts
a fixed default state on first access, which is observationally the same).
The external collaborators (YOLO detector, scipy assignment solver, OCR
engine, per-track speed computation) are passed in as per-frame inputs.
-/

namespace StopSuperSpeeders

/-- From `cv_detector_realtime.py`: `VIOLATION_MIN_OVER = 5`
(minimum mph over limit to flag). -/
def VIOLATION_MIN_OVER : ℚ := 5

/-- From `cv_detector_realtime.py`: `TrafficDetector.MAX_VIOLATIONS = 5`
(maximum violations to capture per session). -/
def MAX_VIOLATIONS : ℕ := 5

/-- From `cv_detector_realtime.py`, `pick_violation_code(mph_over)`:
maps speed over limit to a NY VTL 1180 violation code, returning
`(code, points)`. -/
def pick_violation_code (mph_over : ℚ) : String × ℕ :=
  if mph_over ≤ 10 then ("1180A", 2)
  else if mph_over ≤ 20 then ("1180B", 3)
  else if mph_over ≤ 30 then ("1180C", 5)
  else ("1180D", 8)

/-- From `utils/speed_estimator.py`: the configuration fields of
`SpeedEstimator.__init__` that `estimate_speed` reads
(`smoothing_window` and the per-vehicle `speed_history` dict are not
used by `estimate_speed` and are omitted here). -/
structure SpeedEstimator where
  meters_per_pixel : ℝ
  fps : ℝ
  min_movement : ℝ

/-- From `utils/speed_estimator.py`, `SpeedEstimator.estimate_speed`:
pixel displacement → speed in MPH.  `time_delta = none` models the Python
default argument `time_delta=None`. -/
noncomputable def SpeedEstimator.estimate_speed (e : SpeedEstimator)
    (previous_xy current_xy : ℝ × ℝ) (time_delta : Option ℝ) : ℝ :=
  let dx := current_xy.1 - previous_xy.1
  let dy := current_xy.2 - previous_xy.2
  let pixel_distance := Real.sqrt (dx ^ 2 + dy ^ 2)
  if pixel_distance < e.min_movement then 0
  else
    let meters := pixel_distance * e.meters_per_pixel
    let td := match time_delta with
      | none => 1 / e.fps
      | some t => if t ≤ 0 then 1 / e.fps else t
    let speed_mps := meters / td
    speed_mps * 2.23694

/-- The effective time delta used by `estimate_speed`:
`if time_delta is None or time_delta <= 0: time_delta = 1.0 / self.fps`. -/
noncomputable def SpeedEstimator.effective_dt (e : SpeedEstimator)
    (time_delta : Option ℝ) : ℝ :=
  match time_delta with
  | none => 1 / e.fps
  | some t => if t ≤ 0 then 1 / e.fps else t

/-! ## Multi-object tracker (`utils/vehicle_tracker.py`) -/

/-- A detection's bounding box `(x, y, w, h)` in pixels.  The detector's
`class`/`conf` fields are ignored by `CentroidTracker.update`, which only
reads `det['bbox']`, so they are omitted. -/
structure BBox where
  x : ℤ
  y : ℤ
  w : ℤ
  h : ℤ
deriving DecidableEq

/-- `cx = int(x + w / 2)`, `cy = int(y + h / 2)` from
`CentroidTracker.update`.  Integer division models `int(...)` truncation
(exact for the non-negative boxes the detector produces). -/
def BBox.centroid (b : BBox) : ℤ × ℤ := (b.x + b.w / 2, b.y + b.h / 2)

/-- Squared Euclidean distance between two centroids.  The code compares the
Euclidean distance `D[row, col]` against `max_distance`; since both are
non-negative, `D ≤ max_distance ↔ distSq ≤ max_distance²`, which lets the
tracker stay in exact integer arithmetic. -/
def distSq (a b : ℤ × ℤ) : ℤ := (a.1 - b.1) ^ 2 + (a.2 - b.2) ^ 2

/-- The per-object data of `CentroidTracker`: the class keeps four dicts
(`objects`, `bboxes`, `disappeared`, `position_history`) that always share
the same keys (`register`/`deregister` touch all four together); they are
merged into one record per object id. -/
structure TrackRec where
  centroid : ℤ × ℤ
  bbox : BBox
  disappeared : ℕ
  history : List ((ℤ × ℤ) × ℚ)
deriving DecidableEq

/-- `self.position_history[id] = self.position_history[id][-30:]` once the
list exceeds 30 entries (same shape as the `[-10:]` cap on speed readings,
so the cap is a parameter). -/
def keepLast (n : ℕ) (l : List α) : List α :=
  if l.length > n then l.drop (l.length - n) else l

/-- State of `CentroidTracker`.  `objects` is an `OrderedDict` in the code:
an association list in insertion order, updated in place for existing keys
and appended for new ones. -/
structure CentroidTracker where
  next_object_id : ℕ
  objects : List (ℕ × TrackRec)
  max_disappeared : ℕ
  max_distance : ℕ
deriving DecidableEq

/-- `CentroidTracker.register`: new object with the next available id,
disappearance 0, single-entry history. -/
def CentroidTracker.register (tr : CentroidTracker) (c : ℤ × ℤ) (b : BBox)
    (timestamp : ℚ) : CentroidTracker :=
  { tr with
    objects := tr.objects ++
      [(tr.next_object_id,
        { centroid := c, bbox := b, disappeared := 0,
          history := [(c, timestamp)] })],
    next_object_id := tr.next_object_id + 1 }

/-- The accepted-match update in `CentroidTracker.update`: new centroid and
bbox, disappearance reset to 0, `(centroid, timestamp)` appended to the
history, history capped at the last 30 entries. -/
def matchedUpdate (t : TrackRec) (c : ℤ × ℤ) (b : BBox) (timestamp : ℚ) :
    TrackRec :=
  { centroid := c, bbox := b, disappeared := 0,
    history := keepLast 30 (t.history ++ [(c, timestamp)]) }

/-- The fate of the object at row `r` in the matching loop of
`CentroidTracker.update`: if some accepted pair proposes row `r`, the
object is updated from that pair's detection (the last such pair, as a
later loop iteration overwrites an earlier one); otherwise it gets
`disappeared += 1` and is deregistered (dropped) once the counter exceeds
`max_disappeared`. -/
def rowStep (maxD : ℕ) (accepted : List (ℕ × ℕ)) (cents : List (ℤ × ℤ))
    (bboxes : List BBox) (timestamp : ℚ) (r : ℕ) (p : ℕ × TrackRec) :
    List (ℕ × TrackRec) :=
  match ((accepted.filter (fun rc => rc.1 = r)).getLast?) with
  | some rc =>
    [(p.1, matchedUpdate p.2 (cents.getD rc.2 (0, 0))
        (bboxes.getD rc.2 ⟨0, 0, 0, 0⟩) timestamp)]
  | none =>
    if p.2.disappeared + 1 > maxD then []
    else [(p.1, { p.2 with disappeared := p.2.disappeared + 1 })]

/-- The matching loop of `CentroidTracker.update` (`for row, col in
zip(rows, cols)` followed by the unused-row loop), written as one pass over
the object list with its positional index `r`. -/
def stepRows (maxD : ℕ) (accepted : List (ℕ × ℕ)) (cents : List (ℤ × ℤ))
    (bboxes : List BBox) (timestamp : ℚ) :
    ℕ → List (ℕ × TrackRec) → List (ℕ × TrackRec)
  | _, [] => []
  | r, p :: rest =>
    rowStep maxD accepted cents bboxes timestamp r p ++
    stepRows maxD accepted cents bboxes timestamp (r + 1) rest

/-- The acceptance filter applied to the solver's proposed pairs: the code
`continue`s on a pair with `D[row, col] > self.max_distance`, so a pair is
accepted exactly when `D[row, col] ≤ max_distance` (squared form), with the
in-range conditions recording that solver output always indexes the cost
matrix. -/
def acceptedPairs (max_distance : ℕ)
    (object_centroids input_centroids : List (ℤ × ℤ))
    (proposals : List (ℕ × ℕ)) : List (ℕ × ℕ) :=
  proposals.filter (fun rc =>
    decide (rc.1 < object_centroids.length) &&
    decide (rc.2 < input_centroids.length) &&
    decide (distSq (object_centroids.getD rc.1 (0, 0))
        (input_centroids.getD rc.2 (0, 0)) ≤ (max_distance : ℤ) ^ 2))

/-- `set(range(len(input_centroids))) - used_cols`, in ascending order. -/
def unusedCols (accepted : List (ℕ × ℕ)) (n : ℕ) : List ℕ :=
  (List.range n).filter (fun c => !((accepted.map (fun rc => rc.2)).contains c))

/-- The objects appended by the final registration loop of
`CentroidTracker.update`, starting from the next available id `nid`. -/
def newEntries (cents : List (ℤ × ℤ)) (bboxes : List BBox) (timestamp : ℚ) :
    ℕ → List ℕ → List (ℕ × TrackRec)
  | _, [] => []
  | nid, c :: rest =>
    (nid, { centroid := cents.getD c (0, 0), bbox := bboxes.getD c ⟨0, 0, 0, 0⟩,
            disappeared := 0, history := [(cents.getD c (0, 0), timestamp)] }) ::
    newEntries cents bboxes timestamp (nid + 1) rest

/-- `CentroidTracker.update(detections, timestamp)`.  The assignment solver
(scipy `linear_sum_assignment`, or the greedy fallback) is an external
collaborator here: its output is the `proposals` list of `(row, col)`
pairs.  A proposed pair is accepted exactly when it is in range and
`D[row, col] ≤ max_distance` (the code `continue`s when
`D[row, col] > self.max_distance`), expressed with squared distances.
Detections not in any accepted pair are registered as new objects in
ascending column order. -/
def CentroidTracker.update (tr : CentroidTracker) (proposals : List (ℕ × ℕ))
    (detections : List BBox) (timestamp : ℚ) : CentroidTracker :=
  if detections.isEmpty then
    { tr with objects := tr.objects.filterMap (fun p =>
        if p.2.disappeared + 1 > tr.max_disappeared then none
        else some (p.1, { p.2 with disappeared := p.2.disappeared + 1 })) }
  else
    let input_centroids := detections.map BBox.centroid
    if tr.objects.isEmpty then
      detections.foldl (fun acc b => acc.register b.centroid b timestamp) tr
    else
      let object_centroids := tr.objects.map (fun p => p.2.centroid)
      let accepted := acceptedPairs tr.max_distance object_centroids
        input_centroids proposals
      let survivors := stepRows tr.max_disappeared accepted input_centroids
        detections timestamp 0 tr.objects
      (unusedCols accepted input_centroids.length).foldl
        (fun acc c => acc.register (input_centroids.getD c (0, 0))
          (detections.getD c ⟨0, 0, 0, 0⟩) timestamp)
        { tr with objects := survivors }

/-- A run of consecutive `update` calls in which every existing track goes
unmatched because the detector returns nothing: each call carries its
solver proposals and timestamp, both ignored on the empty-detections
path. -/
def updateRun (tr : CentroidTracker) (calls : List (List (ℕ × ℕ) × ℚ)) :
    CentroidTracker :=
  calls.foldl (fun s c => s.update c.1 [] c.2) tr

/-- One entry of `CentroidTracker._get_tracked_objects()`. -/
structure TrackedObject where
  id : ℕ
  centroid : ℤ × ℤ
  bbox : BBox
  position_history : List ((ℤ × ℤ) × ℚ)
deriving DecidableEq

/-- `CentroidTracker._get_tracked_objects`. -/
def CentroidTracker.get_tracked_objects (tr : CentroidTracker) :
    List TrackedObject :=
  tr.objects.map (fun p => ⟨p.1, p.2.centroid, p.2.bbox, p.2.history⟩)

/-! ## Violation decision engine (`cv_detector_realtime.py`) -/

/-- The per-vehicle state dict created by
`TrafficDetector.get_vehicle_state`. -/
structure VehicleState where
  plate : Option String
  plate_confidence : ℚ
  speeds : List ℚ
  avg_speed : ℚ
  has_violated : Bool
  color : String
  ocr_attempts : ℕ
deriving DecidableEq

/-- The default dict inserted on first access of a vehicle id. -/
def initialVehicleState : VehicleState :=
  { plate := none, plate_confidence := 0, speeds := [], avg_speed := 0,
    has_violated := false, color := "green", ocr_attempts := 0 }

/-- `np.mean` of a (nonempty) list of readings. -/
def listMean (l : List ℚ) : ℚ := l.sum / l.length

/-- `round(x, 1)`: rounding to one decimal.  (Python rounds exact ties to
even; no property here depends on tie behavior.) -/
def round1 (q : ℚ) : ℚ := ((round (q * 10) : ℤ) : ℚ) / 10

/-- The deterministic fallback plate `f"NY{vehicle_id:05d}"`: the decimal
digits of the track id, zero-padded on the left to width 5, after `NY`. -/
def fallbackPlate (vehicle_id : ℕ) : String :=
  let s := toString vehicle_id
  "NY" ++ String.mk (List.replicate (5 - s.length) '0') ++ s

/-- The violation record built in `TrafficDetector.process_frame`. -/
structure Violation where
  vehicle_id : ℕ
  plate : String
  plate_confidence : ℚ
  speed_mph : ℚ
  speed_limit : ℚ
  mph_over : ℚ
  violation_code : String
  points : ℕ
  bbox : BBox
deriving DecidableEq

/-- The `# Update speed history` block of the loop body: a reading is
appended only under `if speed_mph > 0`; the queue keeps its last 10
entries and `avg_speed` is recomputed as their `np.mean`. -/
def speedPhase (speed_mph : ℚ) (state : VehicleState) : VehicleState :=
  if speed_mph > 0 then
    let speeds := keepLast 10 (state.speeds ++ [speed_mph])
    { state with speeds := speeds, avg_speed := listMean speeds }
  else state

/-- The `# Try OCR if we don't have a plate yet` block: while the plate is
null and fewer than 5 attempts have been made, `ocr_attempts` is
incremented and the collaborator's read (if any) is pinned. -/
def ocrPhase (ocr : Option (String × ℚ)) (state : VehicleState) :
    VehicleState :=
  if state.plate = none ∧ state.ocr_attempts < 5 then
    let state := { state with ocr_attempts := state.ocr_attempts + 1 }
    match ocr with
    | some pc => { state with plate := some pc.1, plate_confidence := pc.2 }
    | none => state
  else state

/-- The guarded one-shot emission at the end of the `# Check for violation`
block, with the (possibly just-pinned) plate value passed explicitly: on
`plate = None` (falsy in the code's `if plate and ...`) nothing is
emitted; otherwise the record is emitted exactly when the vehicle has not
yet violated, the plate is not in the session capture set, the smoothed
speed is positive, and at least 3 readings are queued. -/
def emitCheck (speed_limit : ℚ) (vehicle_id : ℕ) (bbox : BBox)
    (speed_over : ℚ) (state : VehicleState)
    (captured_plates : List String) :
    Option String → VehicleState × List String × Option Violation
  | some plate =>
    if state.has_violated = false ∧ plate ∉ captured_plates ∧
        state.avg_speed > 0 ∧ state.speeds.length ≥ 3 then
      let vc := pick_violation_code speed_over
      ({ state with has_violated := true }, plate :: captured_plates,
        some { vehicle_id := vehicle_id, plate := plate,
               plate_confidence := state.plate_confidence,
               speed_mph := round1 state.avg_speed,
               speed_limit := speed_limit, mph_over := round1 speed_over,
               violation_code := vc.1, points := vc.2, bbox := bbox })
    else (state, captured_plates, none)
  | none => (state, captured_plates, none)

/-- The `# Check for violation` block: band coloring from
`avg_speed - speed_limit`, the deterministic fallback plate once
`ocr_attempts >= 3`, and the guarded one-shot emission. -/
def violationPhase (speed_limit : ℚ) (vehicle_id : ℕ) (bbox : BBox)
    (state : VehicleState) (captured_plates : List String) :
    VehicleState × List String × Option Violation :=
  let speed_over := state.avg_speed - speed_limit
  if speed_over ≤ 0 then
    ({ state with color := "green" }, captured_plates, none)
  else if speed_over < VIOLATION_MIN_OVER then
    ({ state with color := "yellow" }, captured_plates, none)
  else
    let state := { state with color := "red" }
    let state : VehicleState :=
      if state.plate = none ∧ state.ocr_attempts ≥ 3 then
        { state with plate := some (fallbackPlate vehicle_id),
                     plate_confidence := 0 }
      else state
    emitCheck speed_limit vehicle_id bbox speed_over state captured_plates
      state.plate

/-- The body of the `for track in tracked:` loop of
`TrafficDetector.process_frame` for a single track: speed-history update,
bounded OCR attempt, band coloring, fallback plate, and the one-shot
violation emission.  `speed_mph` is the result of the `calculate_speed`
collaborator for this track this frame, and `ocr` the result of
`read_license_plate` (`none` models the `(None, 0.0)` outcome).  Returns
the new vehicle state, the new `captured_plates`, and the emitted record,
if any. -/
def processTrack (speed_limit : ℚ) (vehicle_id : ℕ) (bbox : BBox)
    (speed_mph : ℚ) (ocr : Option (String × ℚ))
    (state : VehicleState) (captured_plates : List String) :
    VehicleState × List String × Option Violation :=
  violationPhase speed_limit vehicle_id bbox
    (ocrPhase ocr (speedPhase speed_mph state)) captured_plates

/-- The running state threaded through the per-track loop, plus the
violations list built by the loop. -/
structure FrameAccum where
  vehicle_states : ℕ → VehicleState
  captured_plates : List String
  violations_captured : ℕ
  violations : List Violation

/-- The full `for track in tracked:` loop, including the early `break` once
`violations_captured` reaches `MAX_VIOLATIONS`.  `vehicle_states` models
the `self.vehicle_states` dict as a total function (the code lazily
inserts `initialVehicleState` on first access). -/
def processTracks (speed_limit : ℚ) (speedOf : ℕ → ℚ)
    (ocrOf : ℕ → Option (String × ℚ)) :
    List TrackedObject → (ℕ → VehicleState) → List String → ℕ → FrameAccum
  | [], vs, captured, count =>
    { vehicle_states := vs, captured_plates := captured,
      violations_captured := count, violations := [] }
  | t :: rest, vs, captured, count =>
    let r := processTrack speed_limit t.id t.bbox (speedOf t.id) (ocrOf t.id)
      (vs t.id) captured
    let vs := fun j => if j = t.id then r.1 else vs j
    match r.2.2 with
    | some v =>
      let count := count + 1
      if count ≥ MAX_VIOLATIONS then
        { vehicle_states := vs, captured_plates := r.2.1,
          violations_captured := count, violations := [v] }
      else
        let acc := processTracks speed_limit speedOf ocrOf rest vs r.2.1 count
        { acc with violations := v :: acc.violations }
    | none => processTracks speed_limit speedOf ocrOf rest vs r.2.1 count

/-- The state of a `TrafficDetector` instance that `process_frame` reads
and writes (configuration plus mutable session state). -/
structure TrafficDetector where
  speed_limit : ℚ
  fps : ℚ
  tracker : CentroidTracker
  vehicle_states : ℕ → VehicleState
  captured_plates : List String
  violations_captured : ℕ
  frame_count : ℕ

/-- The per-frame inputs supplied by the external collaborators: the YOLO
detections, the assignment solver's proposals, the per-track
`calculate_speed` results, and the per-track `read_license_plate`
results. -/
structure FrameInput where
  detections : List BBox
  proposals : List (ℕ × ℕ)
  speedOf : ℕ → ℚ
  ocrOf : ℕ → Option (String × ℚ)

/-- `TrafficDetector.process_frame`: increments `frame_count`, stops early
once `MAX_VIOLATIONS` are captured, returns immediately on an empty
detection list, otherwise updates the tracker and runs the per-track
loop.  Returns the new state and the frame's emitted violations. -/
def TrafficDetector.process_frame (d : TrafficDetector) (inp : FrameInput) :
    TrafficDetector × List Violation :=
  let d := { d with frame_count := d.frame_count + 1 }
  let current_time := (d.frame_count : ℚ) / d.fps
  if d.violations_captured ≥ MAX_VIOLATIONS then (d, [])
  else if inp.detections.isEmpty then (d, [])
  else
    let tracker := d.tracker.update inp.proposals inp.detections current_time
    let tracked := tracker.get_tracked_objects
    let acc := processTracks d.speed_limit inp.speedOf inp.ocrOf tracked
      d.vehicle_states d.captured_plates d.violations_captured
    ({ d with tracker := tracker, vehicle_states := acc.vehicle_states,
              captured_plates := acc.captured_plates,
              violations_captured := acc.violations_captured },
     acc.violations)

/-- The frame loop of `process_camera_video`, restricted to the detector:
processes a list of frame inputs in order, concatenating the emitted
violations. -/
def process_frames : TrafficDetector → List FrameInput →
    TrafficDetector × List Violation
  | d, [] => (d, [])
  | d, inp :: rest =>
    let r := TrafficDetector.process_frame d inp
    let rr := process_frames r.1 rest
    (rr.1, r.2 ++ rr.2)

/-! ## Theorems -/

/-- C9: `pick_violation_code` is monotonic and matches the tier table: for
all overages `over1 < over2` the point value for `over2` is never lower
than for `over1`; `over ≤ 10` maps to the A tier (`"1180A"`, 2 points),
`10 < over ≤ 20` to B (`"1180B"`, 3 points), `20 < over ≤ 30` to C
(`"1180C"`, 5 points), and `over > 30` to D (`"1180D"`, 8 points). -/
theorem pick_violation_code_spec :
    (∀ over1 over2 : ℚ, over1 < over2 →
      (pick_violation_code over1).2 ≤ (pick_violation_code over2).2) ∧
    (∀ over : ℚ,
      (over ≤ 10 → pick_violation_code over = ("1180A", 2)) ∧
      (10 < over → over ≤ 20 → pick_violation_code over = ("1180B", 3)) ∧
      (20 < over → over ≤ 30 → pick_violation_code over = ("1180C", 5)) ∧
      (30 < over → pick_violation_code over = ("1180D", 8))) := by
  constructor
  · intro o1 o2 h
    unfold pick_violation_code
    split_ifs <;> norm_num <;> linarith
  · intro o
    refine ⟨fun h1 => ?_, fun h2 h3 => ?_, fun h4 h5 => ?_, fun h6 => ?_⟩ <;>
      unfold pick_violation_code <;> split_ifs <;> first | rfl | linarith

/-- Witness for C9 at concrete overages 3 and 50. -/
theorem pick_violation_code_spec_witness :
    (pick_violation_code 3).2 ≤ (pick_violation_code 50).2 ∧
    pick_violation_code 3 = ("1180A", 2) ∧
    pick_violation_code 50 = ("1180D", 8) :=
  ⟨pick_violation_code_spec.1 3 50 (by norm_num),
   (pick_violation_code_spec.2 3).1 (by norm_num),
   (pick_violation_code_spec.2 50).2.2.2 (by norm_num)⟩

/-- C7: for every pair of positions and every time delta (`none`, zero,
or negative included), `estimate_speed` returns exactly 0 whenever the
Euclidean pixel displacement is below `min_movement`; otherwise it
returns `pixel_distance * meters_per_pixel / dt * 2.23694` mph where `dt`
is replaced by `1 / fps` when not supplied or `≤ 0`
(`SpeedEstimator.effective_dt`). -/
theorem estimate_speed_spec (e : SpeedEstimator)
    (previous_xy current_xy : ℝ × ℝ) (time_delta : Option ℝ) :
    (Real.sqrt ((current_xy.1 - previous_xy.1) ^ 2 +
        (current_xy.2 - previous_xy.2) ^ 2) < e.min_movement →
      e.estimate_speed previous_xy current_xy time_delta = 0) ∧
    (¬ Real.sqrt ((current_xy.1 - previous_xy.1) ^ 2 +
        (current_xy.2 - previous_xy.2) ^ 2) < e.min_movement →
      e.estimate_speed previous_xy current_xy time_delta =
        Real.sqrt ((current_xy.1 - previous_xy.1) ^ 2 +
            (current_xy.2 - previous_xy.2) ^ 2) * e.meters_per_pixel /
          e.effective_dt time_delta * 2.23694) := by
  unfold SpeedEstimator.estimate_speed SpeedEstimator.effective_dt
  constructor <;> intro h
  · simp only [if_pos h]
  · simp only [if_neg h]

/-- Witness for C7: displacement 5 at calibration 0.05 m/px, 30 fps, noise
floor 2 px, default `dt`; and sub-threshold displacement 1. -/
theorem estimate_speed_spec_witness :
    SpeedEstimator.estimate_speed ⟨0.05, 30, 2⟩ (0, 0) (3, 4) none =
      5 * 0.05 / (1 / 30) * 2.23694 ∧
    SpeedEstimator.estimate_speed ⟨0.05, 30, 2⟩ (0, 0) (1, 0) none = 0 := by
  have h5 : Real.sqrt ((((3, 4) : ℝ × ℝ).1 - ((0, 0) : ℝ × ℝ).1) ^ 2 +
      (((3, 4) : ℝ × ℝ).2 - ((0, 0) : ℝ × ℝ).2) ^ 2) = 5 := by
    rw [show (((3, 4) : ℝ × ℝ).1 - ((0, 0) : ℝ × ℝ).1) ^ 2 +
        (((3, 4) : ℝ × ℝ).2 - ((0, 0) : ℝ × ℝ).2) ^ 2 = 5 ^ 2 by norm_num]
    exact Real.sqrt_sq (by norm_num)
  have h1 : Real.sqrt ((((1, 0) : ℝ × ℝ).1 - ((0, 0) : ℝ × ℝ).1) ^ 2 +
      (((1, 0) : ℝ × ℝ).2 - ((0, 0) : ℝ × ℝ).2) ^ 2) = 1 := by
    rw [show (((1, 0) : ℝ × ℝ).1 - ((0, 0) : ℝ × ℝ).1) ^ 2 +
        (((1, 0) : ℝ × ℝ).2 - ((0, 0) : ℝ × ℝ).2) ^ 2 = 1 ^ 2 by norm_num]
    exact Real.sqrt_sq (by norm_num)
  constructor
  · have h := (estimate_speed_spec ⟨0.05, 30, 2⟩ (0, 0) (3, 4) none).2
      (by rw [h5]; norm_num)
    rw [h, h5]
    norm_num [SpeedEstimator.effective_dt]
  · exact (estimate_speed_spec ⟨0.05, 30, 2⟩ (0, 0) (1, 0) none).1
      (by rw [h1]; norm_num)

/-- `speedPhase` touches only `speeds` and `avg_speed`. -/
theorem speedPhase_preserves (s : ℚ) (v : VehicleState) :
    (speedPhase s v).plate = v.plate ∧
    (speedPhase s v).plate_confidence = v.plate_confidence ∧
    (speedPhase s v).has_violated = v.has_violated ∧
    (speedPhase s v).ocr_attempts = v.ocr_attempts := by
  unfold speedPhase
  split <;> exact ⟨rfl, rfl, rfl, rfl⟩

/-- `speedPhase` appends the reading exactly when it is strictly positive,
capping the queue at 10 and recomputing the mean; otherwise the queue and
the smoothed speed are untouched. -/
theorem speedPhase_speeds (s : ℚ) (v : VehicleState) :
    (0 < s →
      (speedPhase s v).speeds = keepLast 10 (v.speeds ++ [s]) ∧
      (speedPhase s v).avg_speed = listMean (keepLast 10 (v.speeds ++ [s]))) ∧
    (¬ 0 < s →
      (speedPhase s v).speeds = v.speeds ∧
      (speedPhase s v).avg_speed = v.avg_speed) := by
  unfold speedPhase
  constructor <;> intro h
  · rw [if_pos h]; exact ⟨rfl, rfl⟩
  · rw [if_neg h]; exact ⟨rfl, rfl⟩

/-- `ocrPhase` touches only `plate`, `plate_confidence` and
`ocr_attempts`. -/
theorem ocrPhase_preserves (o : Option (String × ℚ)) (v : VehicleState) :
    (ocrPhase o v).speeds = v.speeds ∧
    (ocrPhase o v).avg_speed = v.avg_speed ∧
    (ocrPhase o v).has_violated = v.has_violated := by
  unfold ocrPhase
  split
  · cases o <;> exact ⟨rfl, rfl, rfl⟩
  · exact ⟨rfl, rfl, rfl⟩

/-- A pinned plate passes through `ocrPhase` unchanged. -/
theorem ocrPhase_plate_some (o : Option (String × ℚ)) (v : VehicleState)
    (p : String) (h : v.plate = some p) : (ocrPhase o v).plate = some p := by
  unfold ocrPhase
  rw [if_neg (by simp [h])]
  exact h

/-- `ocr_attempts` is incremented exactly when the plate is null and fewer
than 5 attempts have been made, regardless of the read's outcome. -/
theorem ocrPhase_attempts (o : Option (String × ℚ)) (v : VehicleState) :
    (ocrPhase o v).ocr_attempts =
      if v.plate = none ∧ v.ocr_attempts < 5 then v.ocr_attempts + 1
      else v.ocr_attempts := by
  unfold ocrPhase
  split
  · cases o <;> simp_all
  · simp_all

/-- `emitCheck` leaves `speeds`, `avg_speed`, `ocr_attempts`, `plate` and
`plate_confidence` unchanged, and `has_violated` can only move from
`false` to `true`. -/
theorem emitCheck_state (limit : ℚ) (vid : ℕ) (bbox : BBox) (so : ℚ)
    (v : VehicleState) (cap : List String) (op : Option String) :
    (emitCheck limit vid bbox so v cap op).1.speeds = v.speeds ∧
    (emitCheck limit vid bbox so v cap op).1.avg_speed = v.avg_speed ∧
    (emitCheck limit vid bbox so v cap op).1.ocr_attempts = v.ocr_attempts ∧
    (emitCheck limit vid bbox so v cap op).1.plate = v.plate ∧
    (emitCheck limit vid bbox so v cap op).1.plate_confidence
      = v.plate_confidence ∧
    (v.has_violated = true → (emitCheck limit vid bbox so v cap op).1.has_violated = true) := by
  cases op with
  | none => exact ⟨rfl, rfl, rfl, rfl, rfl, fun h => h⟩
  | some q =>
    simp only [emitCheck]
    split_ifs with h4
    · exact ⟨rfl, rfl, rfl, rfl, rfl, fun h => rfl⟩
    · exact ⟨rfl, rfl, rfl, rfl, rfl, fun h => h⟩

/-- `emitCheck` emission discipline: an emitted record's plate is the
passed plate, was not yet captured, and is pushed onto the capture set;
with no emission the capture set is unchanged. -/
theorem emitCheck_emit (limit : ℚ) (vid : ℕ) (bbox : BBox) (so : ℚ)
    (v : VehicleState) (cap : List String) (op : Option String) :
    (∀ viol, (emitCheck limit vid bbox so v cap op).2.2 = some viol →
      viol.plate ∉ cap ∧
      (emitCheck limit vid bbox so v cap op).2.1 = viol.plate :: cap) ∧
    ((emitCheck limit vid bbox so v cap op).2.2 = none →
      (emitCheck limit vid bbox so v cap op).2.1 = cap) := by
  cases op with
  | none => exact ⟨fun viol h => by simp [emitCheck] at h, fun _ => rfl⟩
  | some q =>
    simp only [emitCheck]
    split_ifs with h4
    · refine ⟨fun viol h => ?_, fun h => by simp at h⟩
      injection h with h
      subst h
      exact ⟨h4.2.1, rfl⟩
    · exact ⟨fun viol h => by simp at h, fun _ => rfl⟩

/-- `violationPhase` never modifies the speed queue, the smoothed speed or
the attempt counter. -/
theorem violationPhase_preserves (limit : ℚ) (vid : ℕ) (bbox : BBox)
    (v : VehicleState) (cap : List String) :
    (violationPhase limit vid bbox v cap).1.speeds = v.speeds ∧
    (violationPhase limit vid bbox v cap).1.avg_speed = v.avg_speed ∧
    (violationPhase limit vid bbox v cap).1.ocr_attempts = v.ocr_attempts := by
  unfold violationPhase
  dsimp only
  split_ifs with h1 h2 h3
  · exact ⟨rfl, rfl, rfl⟩
  · exact ⟨rfl, rfl, rfl⟩
  · exact ⟨(emitCheck_state _ _ _ _ _ _ _).1, (emitCheck_state _ _ _ _ _ _ _).2.1,
      (emitCheck_state _ _ _ _ _ _ _).2.2.1⟩
  · exact ⟨(emitCheck_state _ _ _ _ _ _ _).1, (emitCheck_state _ _ _ _ _ _ _).2.1,
      (emitCheck_state _ _ _ _ _ _ _).2.2.1⟩

/-- `has_violated` is a one-way latch: `violationPhase` never resets it. -/
theorem violationPhase_hv_mono (limit : ℚ) (vid : ℕ) (bbox : BBox)
    (v : VehicleState) (cap : List String) (h : v.has_violated = true) :
    (violationPhase limit vid bbox v cap).1.has_violated = true := by
  unfold violationPhase
  dsimp only
  split_ifs with h1 h2 h3
  · exact h
  · exact h
  · exact (emitCheck_state limit vid bbox (v.avg_speed - limit) _ cap _).2.2.2.2.2 h
  · exact (emitCheck_state limit vid bbox (v.avg_speed - limit) _ cap _).2.2.2.2.2 h

/-- A pinned plate passes through `violationPhase` unchanged. -/
theorem violationPhase_plate_some (limit : ℚ) (vid : ℕ) (bbox : BBox)
    (v : VehicleState) (cap : List String) (p : String)
    (hp : v.plate = some p) :
    (violationPhase limit vid bbox v cap).1.plate = some p := by
  unfold violationPhase
  dsimp only
  split_ifs with h1 h2 h3
  · exact hp
  · exact hp
  · exact absurd h3.1 (by rw [hp]; simp)
  · exact ((emitCheck_state limit vid bbox (v.avg_speed - limit) _ cap _).2.2.2.1).trans hp

/-- An emitted record's plate was not yet captured and is pushed onto
`captured_plates`. -/
theorem violationPhase_emit_some (limit : ℚ) (vid : ℕ) (bbox : BBox)
    (v : VehicleState) (cap : List String) (viol : Violation)
    (h : (violationPhase limit vid bbox v cap).2.2 = some viol) :
    viol.plate ∉ cap ∧
    (violationPhase limit vid bbox v cap).2.1 = viol.plate :: cap := by
  unfold violationPhase at h ⊢
  dsimp only at h ⊢
  split_ifs at h ⊢ with h1 h2 h3
  · exact (emitCheck_emit limit vid bbox (v.avg_speed - limit) _ cap _).1 viol h
  · exact (emitCheck_emit limit vid bbox (v.avg_speed - limit) _ cap _).1 viol h

/-- Without an emission the capture set is unchanged. -/
theorem violationPhase_emit_none (limit : ℚ) (vid : ℕ) (bbox : BBox)
    (v : VehicleState) (cap : List String)
    (h : (violationPhase limit vid bbox v cap).2.2 = none) :
    (violationPhase limit vid bbox v cap).2.1 = cap := by
  unfold violationPhase at h ⊢
  dsimp only at h ⊢
  split_ifs at h ⊢ with h1 h2 h3
  · rfl
  · rfl
  · exact (emitCheck_emit limit vid bbox (v.avg_speed - limit) _ cap _).2 h
  · exact (emitCheck_emit limit vid bbox (v.avg_speed - limit) _ cap _).2 h

/-- `ocrPhase` with a failed read leaves the plate unchanged. -/
theorem ocrPhase_none_plate (v : VehicleState) :
    (ocrPhase none v).plate = v.plate := by
  unfold ocrPhase
  split <;> rfl

/-- `has_violated` monotonicity lifted to the whole per-track step. -/
theorem processTrack_hv_mono (limit : ℚ) (vid : ℕ) (bbox : BBox) (s : ℚ)
    (o : Option (String × ℚ)) (state : VehicleState) (cap : List String)
    (h : state.has_violated = true) :
    (processTrack limit vid bbox s o state cap).1.has_violated = true :=
  violationPhase_hv_mono _ _ _ _ _
    (((ocrPhase_preserves o (speedPhase s state)).2.2).trans
      (((speedPhase_preserves s state).2.2.1).trans h))

/-- Plate write-once lifted to the whole per-track step. -/
theorem processTrack_plate_some (limit : ℚ) (vid : ℕ) (bbox : BBox) (s : ℚ)
    (o : Option (String × ℚ)) (state : VehicleState) (cap : List String)
    (p : String) (h : state.plate = some p) :
    (processTrack limit vid bbox s o state cap).1.plate = some p :=
  violationPhase_plate_some _ _ _ _ _ p
    (ocrPhase_plate_some o _ p (((speedPhase_preserves s state).1).trans h))

/-- Emission discipline lifted to the whole per-track step. -/
theorem processTrack_emit_some (limit : ℚ) (vid : ℕ) (bbox : BBox) (s : ℚ)
    (o : Option (String × ℚ)) (state : VehicleState) (cap : List String)
    (viol : Violation)
    (h : (processTrack limit vid bbox s o state cap).2.2 = some viol) :
    viol.plate ∉ cap ∧
    (processTrack limit vid bbox s o state cap).2.1 = viol.plate :: cap :=
  violationPhase_emit_some _ _ _ _ _ viol h

/-- No emission leaves the capture set unchanged, at the per-track step. -/
theorem processTrack_emit_none (limit : ℚ) (vid : ℕ) (bbox : BBox) (s : ℚ)
    (o : Option (String × ℚ)) (state : VehicleState) (cap : List String)
    (h : (processTrack limit vid bbox s o state cap).2.2 = none) :
    (processTrack limit vid bbox s o state cap).2.1 = cap :=
  violationPhase_emit_none _ _ _ _ _ h

/-- The attempt counter after a full per-track step. -/
theorem processTrack_attempts (limit : ℚ) (vid : ℕ) (bbox : BBox) (s : ℚ)
    (o : Option (String × ℚ)) (state : VehicleState) (cap : List String) :
    (processTrack limit vid bbox s o state cap).1.ocr_attempts =
      if state.plate = none ∧ state.ocr_attempts < 5
      then state.ocr_attempts + 1 else state.ocr_attempts := by
  unfold processTrack
  rw [(violationPhase_preserves _ _ _ _ _).2.2, ocrPhase_attempts,
    (speedPhase_preserves s state).1, (speedPhase_preserves s state).2.2.2]

/-- C10: on a frame whose detection list is empty, `process_frame` returns
immediately with no violations and, apart from the frame counter, leaves
the state unchanged: the tracker is not invoked (no disappearance counter
advances, no track is deregistered) and vehicle states, captured plates
and the violation counter are untouched. -/
theorem process_frame_empty_detections (d : TrafficDetector)
    (inp : FrameInput) (h : inp.detections = []) :
    d.process_frame inp = ({ d with frame_count := d.frame_count + 1 }, []) := by
  unfold TrafficDetector.process_frame
  rw [h]
  simp only [List.isEmpty_nil, if_true]
  split_ifs <;> rfl

/-- Witness for C10 at a concrete detector state and empty frame. -/
theorem process_frame_empty_detections_witness :
    TrafficDetector.process_frame
      { speed_limit := 30, fps := 30,
        tracker := { next_object_id := 0, objects := [],
                     max_disappeared := 30, max_distance := 150 },
        vehicle_states := fun _ => initialVehicleState,
        captured_plates := [], violations_captured := 0, frame_count := 0 }
      { detections := [], proposals := [], speedOf := fun _ => 0,
        ocrOf := fun _ => none } =
    ({ speed_limit := 30, fps := 30,
       tracker := { next_object_id := 0, objects := [],
                    max_disappeared := 30, max_distance := 150 },
       vehicle_states := fun _ => initialVehicleState,
       captured_plates := [], violations_captured := 0, frame_count := 1 },
     []) :=
  process_frame_empty_detections _ _ rfl

/-- C1, counterexample: the claim says every raw estimate, including a
zero, is appended to the speed queue; but the code appends only under
`if speed_mph > 0`, so a fresh vehicle receiving a zero estimate keeps an
empty queue instead of the claimed `[0]`. -/
theorem speed_zero_not_appended :
    (processTrack 30 7 ⟨0, 0, 0, 0⟩ 0 none initialVehicleState []).1.speeds
      = [] ∧
    (processTrack 30 7 ⟨0, 0, 0, 0⟩ 0 none initialVehicleState []).1.speeds
      ≠ initialVehicleState.speeds ++ [(0 : ℚ)] := by
  constructor <;>
    norm_num [processTrack, speedPhase, ocrPhase, violationPhase, emitCheck,
      initialVehicleState, VIOLATION_MIN_OVER]

/-- C4, counterexample: with the plate still null and `ocr_attempts = 3`
(rising to 4 this frame, so one attempt of the budget of 5 still remains)
and the vehicle in the VIOLATION band, the code pins the deterministic
placeholder — the claim says this must not happen before the budget of 5
is exhausted. -/
theorem fallback_pin_at_three_attempts :
    (processTrack 30 7 ⟨0, 0, 0, 0⟩ 0 none
        { plate := none, plate_confidence := 0, speeds := [50, 50, 50],
          avg_speed := 50, has_violated := false, color := "green",
          ocr_attempts := 3 } []).1.plate = some (fallbackPlate 7) ∧
    fallbackPlate 7 = "NY00007" ∧
    (processTrack 30 7 ⟨0, 0, 0, 0⟩ 0 none
        { plate := none, plate_confidence := 0, speeds := [50, 50, 50],
          avg_speed := 50, has_violated := false, color := "green",
          ocr_attempts := 3 } []).1.plate_confidence = 0 ∧
    (processTrack 30 7 ⟨0, 0, 0, 0⟩ 0 none
        { plate := none, plate_confidence := 0, speeds := [50, 50, 50],
          avg_speed := 50, has_violated := false, color := "green",
          ocr_attempts := 3 } []).1.ocr_attempts = 4 ∧ (4 : ℕ) < 5 := by
  refine ⟨?_, by decide, ?_, ?_, by decide⟩ <;>
    norm_num [processTrack, speedPhase, ocrPhase, violationPhase, emitCheck,
      VIOLATION_MIN_OVER]

/-- C3, counterexample: a solver-proposed pair at centroid distance
exactly `max_distance` (here 150) is accepted as a match — the track is
updated in place and no new track registers — whereas the claim requires
any pair whose distance is not strictly below `max_distance` to be
rejected. -/
theorem equal_distance_pair_matched :
    (CentroidTracker.update
      { next_object_id := 1,
        objects := [(0, { centroid := (0, 0), bbox := ⟨0, 0, 0, 0⟩,
                          disappeared := 0, history := [((0, 0), 0)] })],
        max_disappeared := 30, max_distance := 150 }
      [(0, 0)] [⟨100, 0, 100, 0⟩] 1) =
    { next_object_id := 1,
      objects := [(0, { centroid := (150, 0), bbox := ⟨100, 0, 100, 0⟩,
                        disappeared := 0,
                        history := [((0, 0), 0), ((150, 0), 1)] })],
      max_disappeared := 30, max_distance := 150 } ∧
    distSq (0, 0) (BBox.centroid ⟨100, 0, 100, 0⟩) = 150 ^ 2 := by
  exact ⟨by decide, by decide⟩

/-- C1 (amended): per frame, the raw speed estimate is appended to the
vehicle's queue exactly when it is strictly positive — a zero (or
negative) estimate leaves the queue and the smoothed speed unchanged; when
appended, the queue is truncated to its most recent 10 entries and the
smoothed speed is recomputed as the arithmetic mean of the queue. -/
theorem speed_queue_update (speed_limit : ℚ) (vid : ℕ) (bbox : BBox)
    (speed_mph : ℚ) (ocr : Option (String × ℚ)) (state : VehicleState)
    (cap : List String) :
    (0 < speed_mph →
      (processTrack speed_limit vid bbox speed_mph ocr state cap).1.speeds
        = keepLast 10 (state.speeds ++ [speed_mph]) ∧
      (processTrack speed_limit vid bbox speed_mph ocr state cap).1.avg_speed
        = listMean (keepLast 10 (state.speeds ++ [speed_mph]))) ∧
    (¬ 0 < speed_mph →
      (processTrack speed_limit vid bbox speed_mph ocr state cap).1.speeds
        = state.speeds ∧
      (processTrack speed_limit vid bbox speed_mph ocr state cap).1.avg_speed
        = state.avg_speed) := by
  unfold processTrack
  constructor <;> intro h
  · exact ⟨((violationPhase_preserves _ _ _ _ _).1).trans
        (((ocrPhase_preserves _ _).1).trans ((speedPhase_speeds _ _).1 h).1),
      ((violationPhase_preserves _ _ _ _ _).2.1).trans
        (((ocrPhase_preserves _ _).2.1).trans ((speedPhase_speeds _ _).1 h).2)⟩
  · exact ⟨((violationPhase_preserves _ _ _ _ _).1).trans
        (((ocrPhase_preserves _ _).1).trans ((speedPhase_speeds _ _).2 h).1),
      ((violationPhase_preserves _ _ _ _ _).2.1).trans
        (((ocrPhase_preserves _ _).2.1).trans ((speedPhase_speeds _ _).2 h).2)⟩

/-- Witness for C1 (amended): a positive reading 40 is appended to a fresh
queue and the mean recomputed; a zero reading leaves a queue unchanged. -/
theorem speed_queue_update_witness :
    (processTrack 30 7 ⟨0, 0, 0, 0⟩ 40 none initialVehicleState []).1.speeds
      = [40] ∧
    (processTrack 30 7 ⟨0, 0, 0, 0⟩ 40 none initialVehicleState []).1.avg_speed
      = 40 ∧
    (processTrack 30 2 ⟨0, 0, 0, 0⟩ 0 none initialVehicleState []).1.speeds
      = initialVehicleState.speeds := by
  refine ⟨((speed_queue_update 30 7 ⟨0, 0, 0, 0⟩ 40 none initialVehicleState []).1
      (by norm_num)).1.trans ?_,
    ((speed_queue_update 30 7 ⟨0, 0, 0, 0⟩ 40 none initialVehicleState []).1
      (by norm_num)).2.trans ?_,
    ((speed_queue_update 30 2 ⟨0, 0, 0, 0⟩ 0 none initialVehicleState []).2
      (by norm_num)).1⟩ <;>
    norm_num [initialVehicleState, keepLast, listMean]

/-- C4 (amended): with the plate still null and no accepted OCR read this
frame, the deterministic placeholder plate (confidence 0) is pinned
exactly when the vehicle is currently in the VIOLATION band and at least
3 OCR attempts have been made (`ocr_attempts ≥ 3`, counting this frame's
attempt) — not only when the budget of 5 is exhausted. -/
theorem fallback_plate_pin (speed_limit : ℚ) (vid : ℕ) (bbox : BBox)
    (speed_mph : ℚ) (state : VehicleState) (cap : List String)
    (hplate : state.plate = none) :
    ((processTrack speed_limit vid bbox speed_mph none state cap).1.plate
        = some (fallbackPlate vid) ∧
     (processTrack speed_limit vid bbox speed_mph none state
        cap).1.plate_confidence = 0) ↔
    (VIOLATION_MIN_OVER ≤ (speedPhase speed_mph state).avg_speed - speed_limit
      ∧ 3 ≤ (ocrPhase none (speedPhase speed_mph state)).ocr_attempts) := by
  have hv1plate : (ocrPhase none (speedPhase speed_mph state)).plate = none :=
    (ocrPhase_none_plate _).trans (((speedPhase_preserves _ _).1).trans hplate)
  have hv1avg : (ocrPhase none (speedPhase speed_mph state)).avg_speed
      = (speedPhase speed_mph state).avg_speed :=
    (ocrPhase_preserves _ _).2.1
  unfold processTrack violationPhase
  dsimp only
  rw [hv1avg] at *
  split_ifs with h1 h2 h3
  · constructor
    · rintro ⟨hp, -⟩
      rw [hv1plate] at hp
      exact absurd hp (by simp)
    · rintro ⟨hb, -⟩
      rw [VIOLATION_MIN_OVER] at hb
      linarith
  · constructor
    · rintro ⟨hp, -⟩
      rw [hv1plate] at hp
      exact absurd hp (by simp)
    · rintro ⟨hb, -⟩
      linarith
  · constructor
    · intro _
      exact ⟨by linarith [not_lt.mp h2], h3.2⟩
    · intro _
      exact ⟨((emitCheck_state _ _ _ _ _ _ _).2.2.2.1).trans rfl,
        ((emitCheck_state _ _ _ _ _ _ _).2.2.2.2.1).trans rfl⟩
  · constructor
    · rintro ⟨hp, -⟩
      have h5 := ((emitCheck_state _ _ _ _ _ _ _).2.2.2.1).symm.trans hp
      simp only [hv1plate] at h5
      exact absurd h5 (by simp)
    · rintro ⟨-, hatt⟩
      exact absurd ⟨hv1plate, hatt⟩ h3

/-- Witness for C4 (amended): at `ocr_attempts = 3` (4 after this frame's
attempt), smoothed speed 50 against limit 30, the placeholder is pinned. -/
theorem fallback_plate_pin_witness :
    (processTrack 30 9 ⟨0, 0, 0, 0⟩ 0 none
        { plate := none, plate_confidence := 1 / 2, speeds := [50, 50, 50],
          avg_speed := 50, has_violated := true, color := "green",
          ocr_attempts := 3 } []).1.plate = some (fallbackPlate 9) ∧
    (processTrack 30 9 ⟨0, 0, 0, 0⟩ 0 none
        { plate := none, plate_confidence := 1 / 2, speeds := [50, 50, 50],
          avg_speed := 50, has_violated := true, color := "green",
          ocr_attempts := 3 } []).1.plate_confidence = 0 :=
  (fallback_plate_pin 30 9 ⟨0, 0, 0, 0⟩ 0
      { plate := none, plate_confidence := 1 / 2, speeds := [50, 50, 50],
        avg_speed := 50, has_violated := true, color := "green",
        ocr_attempts := 3 } [] rfl).mpr
    ⟨by norm_num [speedPhase, VIOLATION_MIN_OVER],
     by norm_num [speedPhase, ocrPhase]⟩

/-- Per-id plate preservation through the per-track loop. -/
theorem processTracks_plate_some (limit : ℚ) (speedOf : ℕ → ℚ)
    (ocrOf : ℕ → Option (String × ℚ)) (tracked : List TrackedObject) :
    ∀ (vs : ℕ → VehicleState) (cap : List String) (count : ℕ) (id : ℕ)
      (p : String), (vs id).plate = some p →
      ((processTracks limit speedOf ocrOf tracked vs cap
        count).vehicle_states id).plate = some p := by
  induction tracked with
  | nil => intro vs cap count id p h; exact h
  | cons t rest ih =>
    intro vs cap count id p h
    have hnew : ((fun j => if j = t.id then
        (processTrack limit t.id t.bbox (speedOf t.id) (ocrOf t.id)
          (vs t.id) cap).1 else vs j) id).plate = some p := by
      dsimp only
      by_cases hid : id = t.id
      · subst hid
        rw [if_pos rfl]
        exact processTrack_plate_some _ _ _ _ _ _ _ p h
      · rw [if_neg hid]
        exact h
    simp only [processTracks]
    cases hr : (processTrack limit t.id t.bbox (speedOf t.id) (ocrOf t.id)
        (vs t.id) cap).2.2 with
    | none => exact ih _ _ _ id p hnew
    | some v =>
      dsimp only
      split_ifs with hc
      · exact hnew
      · exact ih _ _ _ id p hnew

/-- Per-id `has_violated` latch preservation through the per-track loop. -/
theorem processTracks_hv_mono (limit : ℚ) (speedOf : ℕ → ℚ)
    (ocrOf : ℕ → Option (String × ℚ)) (tracked : List TrackedObject) :
    ∀ (vs : ℕ → VehicleState) (cap : List String) (count : ℕ) (id : ℕ),
      (vs id).has_violated = true →
      ((processTracks limit speedOf ocrOf tracked vs cap
        count).vehicle_states id).has_violated = true := by
  induction tracked with
  | nil => intro vs cap count id h; exact h
  | cons t rest ih =>
    intro vs cap count id h
    have hnew : ((fun j => if j = t.id then
        (processTrack limit t.id t.bbox (speedOf t.id) (ocrOf t.id)
          (vs t.id) cap).1 else vs j) id).has_violated = true := by
      dsimp only
      by_cases hid : id = t.id
      · subst hid
        rw [if_pos rfl]
        exact processTrack_hv_mono _ _ _ _ _ _ _ h
      · rw [if_neg hid]
        exact h
    simp only [processTracks]
    cases hr : (processTrack limit t.id t.bbox (speedOf t.id) (ocrOf t.id)
        (vs t.id) cap).2.2 with
    | none => exact ih _ _ _ id hnew
    | some v =>
      dsimp only
      split_ifs with hc
      · exact hnew
      · exact ih _ _ _ id hnew

/-- Once the loop is entered below the cap, the session counter never ends
above `MAX_VIOLATIONS` (the loop `break`s the moment it reaches it). -/
theorem processTracks_count_le (limit : ℚ) (speedOf : ℕ → ℚ)
    (ocrOf : ℕ → Option (String × ℚ)) (tracked : List TrackedObject) :
    ∀ (vs : ℕ → VehicleState) (cap : List String) (count : ℕ),
      count < MAX_VIOLATIONS →
      (processTracks limit speedOf ocrOf tracked vs cap
        count).violations_captured ≤ MAX_VIOLATIONS := by
  induction tracked with
  | nil => intro vs cap count h; exact le_of_lt h
  | cons t rest ih =>
    intro vs cap count h
    simp only [processTracks]
    cases hr : (processTrack limit t.id t.bbox (speedOf t.id) (ocrOf t.id)
        (vs t.id) cap).2.2 with
    | none => exact ih _ _ _ h
    | some v =>
      dsimp only
      split_ifs with hc
      · exact h
      · exact ih _ _ _ (not_le.mp hc)

/-- The per-frame capture discipline: for any plate string `p`, the loop
emits at most one record with plate `p`; none at all if `p` was already
captured; and `p` is in the final capture set exactly when it was already
captured or was emitted this frame. -/
theorem processTracks_plate_inv (limit : ℚ) (speedOf : ℕ → ℚ)
    (ocrOf : ℕ → Option (String × ℚ)) (tracked : List TrackedObject) :
    ∀ (vs : ℕ → VehicleState) (cap : List String) (count : ℕ) (p : String),
      ((processTracks limit speedOf ocrOf tracked vs cap
          count).violations.countP (fun viol => decide (viol.plate = p)) ≤ 1) ∧
      (p ∈ cap →
        (processTracks limit speedOf ocrOf tracked vs cap
          count).violations.countP (fun viol => decide (viol.plate = p)) = 0) ∧
      (p ∈ (processTracks limit speedOf ocrOf tracked vs cap
          count).captured_plates ↔
        (p ∈ cap ∨ 1 ≤ (processTracks limit speedOf ocrOf tracked vs cap
          count).violations.countP (fun viol => decide (viol.plate = p)))) := by
  induction tracked with
  | nil =>
    intro vs cap count p
    refine ⟨by simp [processTracks], fun _ => by simp [processTracks],
      by simp [processTracks]⟩
  | cons t rest ih =>
    intro vs cap count p
    simp only [processTracks]
    cases hr : (processTrack limit t.id t.bbox (speedOf t.id) (ocrOf t.id)
        (vs t.id) cap).2.2 with
    | none =>
      rw [processTrack_emit_none _ _ _ _ _ _ _ hr]
      exact ih _ _ _ p
    | some v =>
      obtain ⟨hnotmem, hcap⟩ := processTrack_emit_some _ _ _ _ _ _ _ v hr
      rw [hcap]
      dsimp only
      split_ifs with hc
      · by_cases hvp : v.plate = p
        · subst hvp
          refine ⟨by simp, fun hmem => absurd hmem hnotmem, by simp⟩
        · refine ⟨by simp [hvp], fun _ => by simp [hvp], ?_⟩
          simp [hvp, List.mem_cons]
          tauto
      · obtain ⟨ih1, ih2, ih3⟩ := ih
          (fun j => if j = t.id then (processTrack limit t.id t.bbox
            (speedOf t.id) (ocrOf t.id) (vs t.id) cap).1 else vs j)
          (v.plate :: cap) (count + 1) p
        by_cases hvp : v.plate = p
        · subst hvp
          have hz := ih2 (List.mem_cons_self _ _)
          refine ⟨?_, fun hmem => absurd hmem hnotmem, ?_⟩
          · simp [List.countP_cons, hz]
          · rw [ih3, hz]
            simp [List.countP_cons]
        · refine ⟨?_, fun hmem => ?_, ?_⟩
          · simpa [List.countP_cons, hvp] using ih1
          · have := ih2 (List.mem_cons_of_mem _ hmem)
            simpa [List.countP_cons, hvp] using this
          · rw [ih3]
            have hne : ¬ p = v.plate := fun h => hvp h.symm
            simp [List.countP_cons, hvp, List.mem_cons, hne]

/-- `process_frame` once the session cap is reached: only the frame
counter changes and nothing is emitted. -/
theorem process_frame_capped (d : TrafficDetector) (inp : FrameInput)
    (h : MAX_VIOLATIONS ≤ d.violations_captured) :
    d.process_frame inp = ({ d with frame_count := d.frame_count + 1 }, []) := by
  unfold TrafficDetector.process_frame
  dsimp only
  rw [if_pos h]

/-- The per-frame facts needed by the session-level invariants: plate and
latch preservation per id, the session counter bound, and the capture
discipline for an arbitrary plate string. -/
theorem process_frame_facts (d : TrafficDetector) (inp : FrameInput) :
    (∀ id p, (d.vehicle_states id).plate = some p →
      ((d.process_frame inp).1.vehicle_states id).plate = some p) ∧
    (∀ id, (d.vehicle_states id).has_violated = true →
      ((d.process_frame inp).1.vehicle_states id).has_violated = true) ∧
    (d.violations_captured ≤ MAX_VIOLATIONS →
      (d.process_frame inp).1.violations_captured ≤ MAX_VIOLATIONS) ∧
    (∀ p,
      ((d.process_frame inp).2.countP
        (fun viol => decide (viol.plate = p)) ≤ 1) ∧
      (p ∈ d.captured_plates → (d.process_frame inp).2.countP
        (fun viol => decide (viol.plate = p)) = 0) ∧
      (p ∈ (d.process_frame inp).1.captured_plates ↔
        (p ∈ d.captured_plates ∨ 1 ≤ (d.process_frame inp).2.countP
          (fun viol => decide (viol.plate = p))))) := by
  unfold TrafficDetector.process_frame
  dsimp only
  split_ifs with h1 h2
  · exact ⟨fun id p h => h, fun id h => h, fun h => h,
      fun p => ⟨by simp, fun _ => by simp, by simp⟩⟩
  · exact ⟨fun id p h => h, fun id h => h, fun h => h,
      fun p => ⟨by simp, fun _ => by simp, by simp⟩⟩
  · exact ⟨fun id p h => processTracks_plate_some _ _ _ _ _ _ _ id p h,
      fun id h => processTracks_hv_mono _ _ _ _ _ _ _ id h,
      fun _ => processTracks_count_le _ _ _ _ _ _ _ (not_le.mp h1),
      fun p => processTracks_plate_inv _ _ _ _ _ _ _ p⟩

/-- The session-level invariants, by induction over the frame sequence. -/
theorem process_frames_facts (inputs : List FrameInput) :
    ∀ d : TrafficDetector,
    (∀ id p, (d.vehicle_states id).plate = some p →
      ((process_frames d inputs).1.vehicle_states id).plate = some p) ∧
    (∀ id, (d.vehicle_states id).has_violated = true →
      ((process_frames d inputs).1.vehicle_states id).has_violated = true) ∧
    (d.violations_captured ≤ MAX_VIOLATIONS →
      (process_frames d inputs).1.violations_captured ≤ MAX_VIOLATIONS) ∧
    (∀ p,
      ((process_frames d inputs).2.countP
        (fun viol => decide (viol.plate = p)) ≤ 1) ∧
      (p ∈ d.captured_plates → (process_frames d inputs).2.countP
        (fun viol => decide (viol.plate = p)) = 0) ∧
      (p ∈ (process_frames d inputs).1.captured_plates ↔
        (p ∈ d.captured_plates ∨ 1 ≤ (process_frames d inputs).2.countP
          (fun viol => decide (viol.plate = p))))) := by
  induction inputs with
  | nil =>
    intro d
    exact ⟨fun id p h => h, fun id h => h, fun h => h,
      fun p => ⟨by simp [process_frames], fun _ => by simp [process_frames],
        by simp [process_frames]⟩⟩
  | cons inp rest ih =>
    intro d
    obtain ⟨f1, f2, f3, f4⟩ := process_frame_facts d inp
    obtain ⟨r1, r2, r3, r4⟩ := ih (d.process_frame inp).1
    simp only [process_frames]
    refine ⟨fun id p h => r1 id p (f1 id p h),
      fun id h => r2 id (f2 id h),
      fun h => r3 (f3 h), fun p => ?_⟩
    obtain ⟨f4a, f4b, f4c⟩ := f4 p
    obtain ⟨r4a, r4b, r4c⟩ := r4 p
    rw [List.countP_append]
    refine ⟨?_, fun hmem => ?_, ?_⟩
    · by_cases hin : p ∈ d.captured_plates
      · rw [f4b hin, r4b (f4c.mpr (Or.inl hin))]
        omega
      · rcases Nat.lt_or_ge ((d.process_frame inp).2.countP
            (fun viol => decide (viol.plate = p))) 1 with hlt | hge
        · rw [Nat.lt_one_iff.mp hlt]
          simpa using r4a
        · rw [r4b (f4c.mpr (Or.inr hge))]
          simpa using f4a
    · rw [f4b hmem, r4b (f4c.mpr (Or.inl hmem))]
    · rw [r4c, f4c]
      constructor
      · rintro ((h | h) | h)
        · exact Or.inl h
        · exact Or.inr (by omega)
        · exact Or.inr (by omega)
      · rintro (h | h)
        · exact Or.inl (Or.inl h)
        · rcases Nat.lt_or_ge ((d.process_frame inp).2.countP
              (fun viol => decide (viol.plate = p))) 1 with hlt | hge
          · have h0 := Nat.lt_one_iff.mp hlt
            exact Or.inr (by omega)
          · exact Or.inl (Or.inr hge)

/-- Once the cap is reached, no later frame of the run emits anything. -/
theorem process_frames_capped (inputs : List FrameInput) :
    ∀ d : TrafficDetector, MAX_VIOLATIONS ≤ d.violations_captured →
      (process_frames d inputs).2 = [] := by
  induction inputs with
  | nil => intro d h; rfl
  | cons inp rest ih =>
    intro d h
    simp only [process_frames]
    rw [process_frame_capped d inp h]
    dsimp only
    rw [List.nil_append]
    exact ih _ h

/-- C2: within one session, for every plate string at most one violation
record containing that plate is ever emitted, no matter how many frames or
tracks carry it; and for every track id, `has_violated` is never reset —
it transitions at most once, from `false` to `true`. -/
theorem plate_once_and_latch (d : TrafficDetector) (inputs : List FrameInput)
    (p : String) (id : ℕ) :
    ((process_frames d inputs).2.countP
      (fun viol => decide (viol.plate = p)) ≤ 1) ∧
    ((d.vehicle_states id).has_violated = true →
      ((process_frames d inputs).1.vehicle_states id).has_violated = true) :=
  ⟨((process_frames_facts inputs d).2.2.2 p).1,
   fun h => (process_frames_facts inputs d).2.1 id h⟩

/-- Witness for C2 at a concrete one-frame session with a latched track. -/
theorem plate_once_and_latch_witness :
    ((process_frames
        { speed_limit := 30, fps := 30,
          tracker := { next_object_id := 0, objects := [],
                       max_disappeared := 30, max_distance := 150 },
          vehicle_states := fun _ =>
            { plate := some "ZZ111", plate_confidence := 1,
              speeds := [50, 50, 50], avg_speed := 50, has_violated := true,
              color := "red", ocr_attempts := 5 },
          captured_plates := ["ZZ111"], violations_captured := 1,
          frame_count := 0 }
        [{ detections := [], proposals := [], speedOf := fun _ => 0,
           ocrOf := fun _ => none }]).2.countP
      (fun viol => decide (viol.plate = "ZZ111")) ≤ 1) ∧
    ((process_frames
        { speed_limit := 30, fps := 30,
          tracker := { next_object_id := 0, objects := [],
                       max_disappeared := 30, max_distance := 150 },
          vehicle_states := fun _ =>
            { plate := some "ZZ111", plate_confidence := 1,
              speeds := [50, 50, 50], avg_speed := 50, has_violated := true,
              color := "red", ocr_attempts := 5 },
          captured_plates := ["ZZ111"], violations_captured := 1,
          frame_count := 0 }
        [{ detections := [], proposals := [], speedOf := fun _ => 0,
           ocrOf := fun _ => none }]).1.vehicle_states 0).has_violated
      = true :=
  ⟨(plate_once_and_latch _ _ "ZZ111" 0).1,
   (plate_once_and_latch _ _ "ZZ111" 0).2 rfl⟩

/-- C5: once the session counter has reached `MAX_VIOLATIONS`, no
subsequent frame ever emits a violation record — even for a
newly-appearing vehicle with a novel plate — and the counter never
exceeds `MAX_VIOLATIONS`. -/
theorem session_cap (d : TrafficDetector) (inputs : List FrameInput) :
    (MAX_VIOLATIONS ≤ d.violations_captured →
      (process_frames d inputs).2 = []) ∧
    (d.violations_captured ≤ MAX_VIOLATIONS →
      (process_frames d inputs).1.violations_captured ≤ MAX_VIOLATIONS) :=
  ⟨fun h => process_frames_capped inputs d h,
   fun h => (process_frames_facts inputs d).2.2.1 h⟩

/-- Witness for C5: at the cap (5), a frame with a fresh fast vehicle and
a novel plate on offer still emits nothing. -/
theorem session_cap_witness :
    ((process_frames
        { speed_limit := 30, fps := 30,
          tracker := { next_object_id := 0, objects := [],
                       max_disappeared := 30, max_distance := 150 },
          vehicle_states := fun _ => initialVehicleState,
          captured_plates := [], violations_captured := 5, frame_count := 0 }
        [{ detections := [⟨0, 0, 2, 2⟩], proposals := [],
           speedOf := fun _ => 100,
           ocrOf := fun _ => some ("NEW42", 1) }]).2 = []) ∧
    ((process_frames
        { speed_limit := 30, fps := 30,
          tracker := { next_object_id := 0, objects := [],
                       max_disappeared := 30, max_distance := 150 },
          vehicle_states := fun _ => initialVehicleState,
          captured_plates := [], violations_captured := 5, frame_count := 0 }
        [{ detections := [⟨0, 0, 2, 2⟩], proposals := [],
           speedOf := fun _ => 100,
           ocrOf := fun _ => some ("NEW42", 1) }]).1.violations_captured
      ≤ MAX_VIOLATIONS) :=
  ⟨(session_cap _ _).1 (by decide), (session_cap _ _).2 (by decide)⟩

/-- C8: a plate, once pinned, is never reassigned over the whole run; the
OCR attempt counter is incremented exactly when the plate is null and
fewer than 5 attempts have been made (regardless of the read's outcome);
and the counter never exceeds 5. -/
theorem plate_write_once (d : TrafficDetector) (inputs : List FrameInput)
    (id : ℕ) (p : String) (speed_limit : ℚ) (vid : ℕ) (bbox : BBox)
    (speed_mph : ℚ) (ocr : Option (String × ℚ)) (state : VehicleState)
    (cap : List String) :
    ((d.vehicle_states id).plate = some p →
      ((process_frames d inputs).1.vehicle_states id).plate = some p) ∧
    ((processTrack speed_limit vid bbox speed_mph ocr state
        cap).1.ocr_attempts =
      if state.plate = none ∧ state.ocr_attempts < 5
      then state.ocr_attempts + 1 else state.ocr_attempts) ∧
    (state.ocr_attempts ≤ 5 →
      (processTrack speed_limit vid bbox speed_mph ocr state
        cap).1.ocr_attempts ≤ 5) :=
  ⟨fun h => (process_frames_facts inputs d).1 id p h,
   processTrack_attempts _ _ _ _ _ _ _,
   fun h => by
     rw [processTrack_attempts]
     split_ifs with hg
     · exact hg.2
     · exact h⟩

/-- Witness for C8: a pinned plate survives a frame; a fresh vehicle's
counter goes 0 → 1 on a failed read; the bound 5 holds. -/
theorem plate_write_once_witness :
    (((process_frames
        { speed_limit := 30, fps := 30,
          tracker := { next_object_id := 0, objects := [],
                       max_disappeared := 30, max_distance := 150 },
          vehicle_states := fun _ =>
            { plate := some "AB123", plate_confidence := 1,
              speeds := [], avg_speed := 0, has_violated := false,
              color := "green", ocr_attempts := 2 },
          captured_plates := [], violations_captured := 0, frame_count := 0 }
        [{ detections := [], proposals := [], speedOf := fun _ => 0,
           ocrOf := fun _ => none }]).1.vehicle_states 3).plate
      = some "AB123") ∧
    (processTrack 30 1 ⟨0, 0, 0, 0⟩ 0 none initialVehicleState
      []).1.ocr_attempts = 1 ∧
    (processTrack 30 1 ⟨0, 0, 0, 0⟩ 0 none initialVehicleState
      []).1.ocr_attempts ≤ 5 := by
  have h := plate_write_once
    { speed_limit := 30, fps := 30,
      tracker := { next_object_id := 0, objects := [],
                   max_disappeared := 30, max_distance := 150 },
      vehicle_states := fun _ =>
        { plate := some "AB123", plate_confidence := 1,
          speeds := [], avg_speed := 0, has_violated := false,
          color := "green", ocr_attempts := 2 },
      captured_plates := [], violations_captured := 0, frame_count := 0 }
    [{ detections := [], proposals := [], speedOf := fun _ => 0,
       ocrOf := fun _ => none }] 3 "AB123" 30 1 ⟨0, 0, 0, 0⟩ 0 none
    initialVehicleState []
  refine ⟨h.1 rfl, (h.2.1).trans ?_, h.2.2 (by decide)⟩
  norm_num [initialVehicleState]

/-- In an association list with distinct keys, a key determines its
entry. -/
theorem assoc_nodup_eq {α : Type} {l : List (ℕ × α)}
    (hnd : (l.map Prod.fst).Nodup) {id : ℕ} {a b : α}
    (ha : (id, a) ∈ l) (hb : (id, b) ∈ l) : a = b := by
  induction l with
  | nil => simp at ha
  | cons p rest ih =>
    simp only [List.map_cons, List.nodup_cons] at hnd
    rcases List.mem_cons.mp ha with h1 | h1 <;>
      rcases List.mem_cons.mp hb with h2 | h2
    · have h3 : (id, a) = (id, b) := h1.trans h2.symm
      exact ((Prod.mk.injEq _ _ _ _).mp h3).2
    · exfalso
      apply hnd.1
      rw [← h1]
      show id ∈ List.map Prod.fst rest
      exact List.mem_map_of_mem Prod.fst h2
    · exfalso
      apply hnd.1
      rw [← h2]
      show id ∈ List.map Prod.fst rest
      exact List.mem_map_of_mem Prod.fst h1
    · exact ih hnd.2 h1 h2

/-- The empty-detections branch of `update`, as an equation. -/
theorem update_empty_eq (tr : CentroidTracker) (ps : List (ℕ × ℕ)) (ts : ℚ) :
    tr.update ps [] ts =
      { tr with objects := tr.objects.filterMap (fun p =>
          if p.2.disappeared + 1 > tr.max_disappeared then none
          else some (p.1, { p.2 with disappeared := p.2.disappeared + 1 })) } := by
  unfold CentroidTracker.update
  rfl

/-- Surviving keys of the empty-detections branch form a sublist of the
original keys. -/
theorem update_empty_keys_sublist (maxD : ℕ) :
    ∀ l : List (ℕ × TrackRec),
      ((l.filterMap (fun p =>
          if p.2.disappeared + 1 > maxD then none
          else some (p.1, { p.2 with disappeared := p.2.disappeared + 1 }))).map
        Prod.fst).Sublist (l.map Prod.fst) := by
  intro l
  induction l with
  | nil => simp
  | cons p rest ih =>
    by_cases hcond : p.2.disappeared + 1 > maxD
    · simp only [List.filterMap_cons, if_pos hcond]
      exact ih.trans (List.sublist_cons_self _ _)
    · simp only [List.filterMap_cons, if_neg hcond]
      simpa using ih.cons₂ p.1

/-- A track that survives the empty-detections call keeps its identity with
the counter incremented. -/
theorem update_empty_mem (tr : CentroidTracker) (ps : List (ℕ × ℕ)) (ts : ℚ)
    (id : ℕ) (t : TrackRec) (hmem : (id, t) ∈ tr.objects)
    (hle : t.disappeared + 1 ≤ tr.max_disappeared) :
    (id, { t with disappeared := t.disappeared + 1 })
      ∈ (tr.update ps [] ts).objects := by
  rw [update_empty_eq]
  exact List.mem_filterMap.mpr ⟨(id, t), hmem, by
    rw [if_neg (not_lt.mpr hle)]⟩

/-- A track whose counter would exceed the patience is gone after the
empty-detections call. -/
theorem update_empty_absent (tr : CentroidTracker) (ps : List (ℕ × ℕ))
    (ts : ℚ) (id : ℕ) (t : TrackRec)
    (hnd : (tr.objects.map Prod.fst).Nodup) (hmem : (id, t) ∈ tr.objects)
    (hgt : tr.max_disappeared < t.disappeared + 1) :
    id ∉ (tr.update ps [] ts).objects.map Prod.fst := by
  rw [update_empty_eq]
  intro hin
  obtain ⟨⟨k, x⟩, hx, hk⟩ := List.mem_map.mp hin
  obtain ⟨⟨k2, u⟩, hu, hfu⟩ := List.mem_filterMap.mp hx
  dsimp only at hk
  subst hk
  split_ifs at hfu with hcond
  injection hfu with hfu
  rw [Prod.mk.injEq] at hfu
  obtain ⟨h1, h2⟩ := hfu
  dsimp only at h1
  subst h1
  have heq := assoc_nodup_eq hnd hu hmem
  subst heq
  exact hcond hgt

/-- Keys never reappear on the empty-detections path. -/
theorem update_empty_keys_sub (tr : CentroidTracker) (ps : List (ℕ × ℕ))
    (ts : ℚ) (k : ℕ)
    (h : k ∈ (tr.update ps [] ts).objects.map Prod.fst) :
    k ∈ tr.objects.map Prod.fst := by
  rw [update_empty_eq] at h
  exact (update_empty_keys_sublist tr.max_disappeared tr.objects).mem h

/-- A key absent from the registry stays absent over an empty-detections
run. -/
theorem updateRun_absent (calls : List (List (ℕ × ℕ) × ℚ)) :
    ∀ (s : CentroidTracker) (id : ℕ), id ∉ s.objects.map Prod.fst →
      id ∉ (updateRun s calls).objects.map Prod.fst := by
  induction calls with
  | nil => intro s id h; exact h
  | cons c rest ih =>
    intro s id h
    exact ih _ id (fun hin => h (update_empty_keys_sub s c.1 c.2 id hin))

/-- Distinct keys survive the empty-detections call distinct. -/
theorem update_empty_nodup (tr : CentroidTracker) (ps : List (ℕ × ℕ))
    (ts : ℚ) (hnd : (tr.objects.map Prod.fst).Nodup) :
    ((tr.update ps [] ts).objects.map Prod.fst).Nodup := by
  rw [update_empty_eq]
  exact (update_empty_keys_sublist tr.max_disappeared tr.objects).nodup hnd

/-- The empty-detections-run half of the deregistration-timing claim. -/
theorem deregistration_run (tr : CentroidTracker)
    (calls : List (List (ℕ × ℕ) × ℚ)) (id : ℕ) (t : TrackRec)
    (hnd : (tr.objects.map Prod.fst).Nodup)
    (hmem : (id, t) ∈ tr.objects)
    (hd : t.disappeared ≤ tr.max_disappeared) :
    (id ∈ (updateRun tr calls).objects.map Prod.fst ↔
      t.disappeared + calls.length ≤ tr.max_disappeared) ∧
    (t.disappeared + calls.length ≤ tr.max_disappeared →
      (id, { t with disappeared := t.disappeared + calls.length })
        ∈ (updateRun tr calls).objects) := by
  induction calls generalizing tr t with
  | nil =>
    refine ⟨iff_of_true ?_ (by simpa using hd), fun _ => ?_⟩
    · exact List.mem_map_of_mem Prod.fst hmem
    · exact hmem
  | cons c rest ih =>
    have hmaxd : (tr.update c.1 [] c.2).max_disappeared = tr.max_disappeared :=
      rfl
    rw [show updateRun tr (c :: rest) = updateRun (tr.update c.1 [] c.2) rest
      from rfl]
    simp only [List.length_cons]
    by_cases hcase : t.disappeared + 1 ≤ tr.max_disappeared
    · have hnd1 := update_empty_nodup tr c.1 c.2 hnd
      have hmem1 := update_empty_mem tr c.1 c.2 id t hmem hcase
      obtain ⟨ihiff, ihmem⟩ := ih (tr.update c.1 [] c.2)
        { t with disappeared := t.disappeared + 1 } hnd1 hmem1
        (by rw [hmaxd]; exact hcase)
      constructor
      · rw [ihiff, hmaxd]
        dsimp only
        omega
      · intro hle
        have h3 := ihmem (by rw [hmaxd]; dsimp only; omega)
        have harith : t.disappeared + 1 + rest.length
            = t.disappeared + (rest.length + 1) := by omega
        rw [harith] at h3
        exact h3
    · have habs := update_empty_absent tr c.1 c.2 id t hnd hmem
        (not_le.mp hcase)
      have habs2 := updateRun_absent rest _ id habs
      exact ⟨iff_of_false habs2 (by omega), fun hle => absurd hle (by omega)⟩

/-- Every entry produced by `rowStep` keeps its object's key. -/
theorem rowStep_key (maxD : ℕ) (acc : List (ℕ × ℕ)) (cents : List (ℤ × ℤ))
    (bbs : List BBox) (ts : ℚ) (r : ℕ) (p : ℕ × TrackRec)
    (q : ℕ × TrackRec) (h : q ∈ rowStep maxD acc cents bbs ts r p) :
    q.1 = p.1 := by
  unfold rowStep at h
  cases hl : (acc.filter (fun rc => rc.1 = r)).getLast? with
  | none =>
    rw [hl] at h
    split_ifs at h
    · simp at h
    · simp only [List.mem_singleton] at h
      rw [h]
  | some rc =>
    rw [hl] at h
    simp only [List.mem_singleton] at h
    rw [h]

/-- An object whose row is proposed by no accepted pair survives with its
counter incremented, provided the patience is not yet exceeded. -/
theorem stepRows_mem_unmatched (maxD : ℕ) (acc : List (ℕ × ℕ))
    (cents : List (ℤ × ℤ)) (bbs : List BBox) (ts : ℚ) :
    ∀ (objs : List (ℕ × TrackRec)) (r0 i : ℕ) (id : ℕ) (t : TrackRec),
      objs.get? i = some (id, t) →
      acc.filter (fun rc => rc.1 = r0 + i) = [] →
      t.disappeared + 1 ≤ maxD →
      (id, { t with disappeared := t.disappeared + 1 })
        ∈ stepRows maxD acc cents bbs ts r0 objs := by
  intro objs
  induction objs with
  | nil => intro r0 i id t h; simp at h
  | cons p rest ih =>
    intro r0 i id t hget hfilter hle
    cases i with
    | zero =>
      rw [List.get?_cons_zero] at hget
      injection hget with hget
      subst hget
      apply List.mem_append_left
      unfold rowStep
      rw [Nat.add_zero] at hfilter
      rw [hfilter]
      simp only [List.getLast?_nil]
      rw [if_neg (not_lt.mpr hle)]
      exact List.mem_singleton.mpr rfl
    | succ i =>
      rw [List.get?_cons_succ] at hget
      apply List.mem_append_right
      apply ih (r0 + 1) i id t hget _ hle
      rw [show r0 + 1 + i = r0 + (i + 1) by omega]
      exact hfilter

/-- Every entry of `stepRows` comes from some object of the input list, at
its positional row. -/
theorem stepRows_mem_src (maxD : ℕ) (acc : List (ℕ × ℕ))
    (cents : List (ℤ × ℤ)) (bbs : List BBox) (ts : ℚ) :
    ∀ (objs : List (ℕ × TrackRec)) (r0 : ℕ) (k : ℕ) (x : TrackRec),
      (k, x) ∈ stepRows maxD acc cents bbs ts r0 objs →
      ∃ i t, objs.get? i = some (k, t) ∧
        (k, x) ∈ rowStep maxD acc cents bbs ts (r0 + i) (k, t) := by
  intro objs
  induction objs with
  | nil => intro r0 k x h; simp [stepRows] at h
  | cons p rest ih =>
    intro r0 k x h
    rcases List.mem_append.mp h with h1 | h1
    · have hk := rowStep_key maxD acc cents bbs ts r0 p (k, x) h1
      dsimp only at hk
      refine ⟨0, p.2, ?_, ?_⟩
      · rw [List.get?_cons_zero, hk]
      · rw [Nat.add_zero]
        have hpe : p = (k, p.2) := by rw [hk]
        rw [← hpe]
        exact h1
    · obtain ⟨i, t, hget, hrow⟩ := ih (r0 + 1) k x h1
      refine ⟨i + 1, t, by rw [List.get?_cons_succ]; exact hget, ?_⟩
      rw [show r0 + (i + 1) = r0 + 1 + i by omega]
      exact hrow

/-- With distinct keys, an unmatched object past its patience contributes
nothing: its key is absent from the survivors. -/
theorem stepRows_absent (maxD : ℕ) (acc : List (ℕ × ℕ))
    (cents : List (ℤ × ℤ)) (bbs : List BBox) (ts : ℚ)
    (objs : List (ℕ × TrackRec)) (i : ℕ) (id : ℕ) (t : TrackRec)
    (hnd : (objs.map Prod.fst).Nodup)
    (hget : objs.get? i = some (id, t))
    (hfilter : acc.filter (fun rc => rc.1 = 0 + i) = [])
    (hgt : maxD < t.disappeared + 1) :
    id ∉ (stepRows maxD acc cents bbs ts 0 objs).map Prod.fst := by
  intro hin
  obtain ⟨⟨k, x⟩, hx, hk⟩ := List.mem_map.mp hin
  dsimp only at hk
  subst hk
  obtain ⟨j, u, hj, hrow⟩ := stepRows_mem_src maxD acc cents bbs ts objs 0
    k x hx
  have hij : i = j := by
    have hgi : objs[i]? = some (k, t) := by
      rw [← List.get?_eq_getElem?]; exact hget
    have hgj : objs[j]? = some (k, u) := by
      rw [← List.get?_eq_getElem?]; exact hj
    have h1 : (objs.map Prod.fst).get? i = some k := by
      rw [List.get?_eq_getElem?, List.getElem?_map, hgi]
      rfl
    have h2 : (objs.map Prod.fst).get? j = some k := by
      rw [List.get?_eq_getElem?, List.getElem?_map, hgj]
      rfl
    have hlen : i < (objs.map Prod.fst).length := by
      by_contra hge
      rw [List.get?_eq_none.mpr (not_lt.mp hge)] at h1
      exact Option.noConfusion h1
    exact List.get?_inj hlen hnd (h1.trans h2.symm)
  subst hij
  rw [hget] at hj
  injection hj with hj
  have hu : u = t := ((Prod.mk.injEq _ _ _ _).mp hj.symm).2
  subst hu
  unfold rowStep at hrow
  rw [hfilter] at hrow
  simp only [List.getLast?_nil] at hrow
  rw [if_pos hgt] at hrow
  simp at hrow

/-- The registration loop appends `newEntries` starting at the next free
id. -/
theorem registerFold_objects (cents : List (ℤ × ℤ)) (bbs : List BBox)
    (ts : ℚ) :
    ∀ (cols : List ℕ) (s : CentroidTracker),
      (cols.foldl (fun acc c => acc.register (cents.getD c (0, 0))
        (bbs.getD c ⟨0, 0, 0, 0⟩) ts) s).objects
        = s.objects ++ newEntries cents bbs ts s.next_object_id cols := by
  intro cols
  induction cols with
  | nil => intro s; simp [newEntries]
  | cons c rest ih =>
    intro s
    simp only [List.foldl_cons]
    rw [ih]
    simp [CentroidTracker.register, newEntries, List.append_assoc]

/-- Keys of `newEntries` start at the given next id. -/
theorem newEntries_key_ge (cents : List (ℤ × ℤ)) (bbs : List BBox)
    (ts : ℚ) :
    ∀ (cols : List ℕ) (nid : ℕ) (k : ℕ) (x : TrackRec),
      (k, x) ∈ newEntries cents bbs ts nid cols → nid ≤ k := by
  intro cols
  induction cols with
  | nil => intro nid k x h; simp [newEntries] at h
  | cons c rest ih =>
    intro nid k x h
    simp only [newEntries, List.mem_cons] at h
    rcases h with h | h
    · injection h with h1 h2
      omega
    · exact le_trans (Nat.le_succ nid) (ih (nid + 1) k x h)

/-- Every unused column is registered as a brand-new object with a fresh
id. -/
theorem newEntries_mem (cents : List (ℤ × ℤ)) (bbs : List BBox) (ts : ℚ) :
    ∀ (cols : List ℕ) (nid : ℕ) (c : ℕ), c ∈ cols →
      ∃ k, nid ≤ k ∧
        (k, { centroid := cents.getD c (0, 0), bbox := bbs.getD c ⟨0, 0, 0, 0⟩,
              disappeared := 0, history := [(cents.getD c (0, 0), ts)] })
          ∈ newEntries cents bbs ts nid cols := by
  intro cols
  induction cols with
  | nil => intro nid c h; simp at h
  | cons c0 rest ih =>
    intro nid c h
    rcases List.mem_cons.mp h with h | h
    · subst h
      exact ⟨nid, le_refl nid, List.mem_cons_self _ _⟩
    · obtain ⟨k, hk1, hk2⟩ := ih (nid + 1) c h
      exact ⟨k, le_trans (Nat.le_succ nid) hk1, List.mem_cons_of_mem _ hk2⟩

/-- The nonempty-path `update`, as an equation: survivors of the matching
loop followed by registrations of the unused columns. -/
theorem update_objects_eq (tr : CentroidTracker) (proposals : List (ℕ × ℕ))
    (detections : List BBox) (ts : ℚ) (hdet : detections ≠ [])
    (hobj : tr.objects ≠ []) :
    (tr.update proposals detections ts).objects =
      stepRows tr.max_disappeared
        (acceptedPairs tr.max_distance
          (tr.objects.map (fun p => p.2.centroid))
          (detections.map BBox.centroid) proposals)
        (detections.map BBox.centroid) detections ts 0 tr.objects ++
      newEntries (detections.map BBox.centroid) detections ts
        tr.next_object_id
        (unusedCols
          (acceptedPairs tr.max_distance
            (tr.objects.map (fun p => p.2.centroid))
            (detections.map BBox.centroid) proposals)
          (detections.map BBox.centroid).length) := by
  unfold CentroidTracker.update
  rw [if_neg (by simpa using hdet)]
  rw [if_neg (by simpa using hobj)]
  rw [registerFold_objects]

/-- A row proposed by no accepted pair behaves exactly like an unmatched
track: counter incremented, deregistered once past the patience. -/
theorem update_unmatched_row (tr : CentroidTracker)
    (proposals : List (ℕ × ℕ)) (detections : List BBox) (ts : ℚ) (r : ℕ)
    (id : ℕ) (t : TrackRec) (hdet : detections ≠ [])
    (hr : tr.objects.get? r = some (id, t))
    (hnd : (tr.objects.map Prod.fst).Nodup)
    (hbound : ∀ k ∈ tr.objects.map Prod.fst, k < tr.next_object_id)
    (hnoacc : (acceptedPairs tr.max_distance
        (tr.objects.map (fun p => p.2.centroid))
        (detections.map BBox.centroid) proposals).filter
        (fun rc => rc.1 = r) = []) :
    (t.disappeared + 1 ≤ tr.max_disappeared →
      (id, { t with disappeared := t.disappeared + 1 })
        ∈ (tr.update proposals detections ts).objects) ∧
    (tr.max_disappeared < t.disappeared + 1 →
      id ∉ (tr.update proposals detections ts).objects.map Prod.fst) := by
  have hobj : tr.objects ≠ [] := by
    intro he
    rw [he] at hr
    simp at hr
  have hnoacc0 : (acceptedPairs tr.max_distance
      (tr.objects.map (fun p => p.2.centroid))
      (detections.map BBox.centroid) proposals).filter
      (fun rc => rc.1 = 0 + r) = [] := by
    rw [Nat.zero_add]
    exact hnoacc
  rw [update_objects_eq tr proposals detections ts hdet hobj]
  constructor
  · intro hle
    exact List.mem_append_left _
      (stepRows_mem_unmatched _ _ _ _ _ _ 0 r id t hr hnoacc0 hle)
  · intro hgt hin
    rw [List.map_append] at hin
    rcases List.mem_append.mp hin with h1 | h1
    · exact stepRows_absent _ _ _ _ _ _ r id t hnd hr hnoacc0 hgt h1
    · obtain ⟨⟨k, x⟩, hx, hk⟩ := List.mem_map.mp h1
      dsimp only at hk
      subst hk
      have hge := newEntries_key_ge _ _ _ _ _ _ _ hx
      have hlt := hbound _ (List.mem_map_of_mem Prod.fst (List.get?_mem hr))
      omega

/-- C3 (amended): a solver-proposed pair is rejected as a non-match
exactly when its centroid distance is strictly greater than
`max_distance`: for such a pair the existing track is treated as
unmatched (counter incremented; deregistered once past the patience) and
the detection is registered as a brand-new track under a fresh id.  A
pair at distance exactly `max_distance` is accepted (see the
counterexample), so "not strictly less than" in the claim is wrong at
the boundary. -/
theorem rejected_pair_unmatched (tr : CentroidTracker)
    (proposals : List (ℕ × ℕ)) (detections : List BBox) (ts : ℚ)
    (r c : ℕ) (id : ℕ) (t : TrackRec)
    (hdet : detections ≠ [])
    (hr : tr.objects.get? r = some (id, t))
    (hnd : (tr.objects.map Prod.fst).Nodup)
    (hbound : ∀ k ∈ tr.objects.map Prod.fst, k < tr.next_object_id)
    (hrows : (proposals.map Prod.fst).Nodup)
    (hcols : (proposals.map Prod.snd).Nodup)
    (hmem : (r, c) ∈ proposals)
    (hc : c < detections.length)
    (hfar : (tr.max_distance : ℤ) ^ 2 <
      distSq t.centroid ((detections.map BBox.centroid).getD c (0, 0))) :
    ((t.disappeared + 1 ≤ tr.max_disappeared →
        (id, { t with disappeared := t.disappeared + 1 })
          ∈ (tr.update proposals detections ts).objects) ∧
     (tr.max_disappeared < t.disappeared + 1 →
        id ∉ (tr.update proposals detections ts).objects.map Prod.fst)) ∧
    (∃ nid, tr.next_object_id ≤ nid ∧
      (nid, { centroid := (detections.map BBox.centroid).getD c (0, 0),
              bbox := detections.getD c ⟨0, 0, 0, 0⟩, disappeared := 0,
              history := [((detections.map BBox.centroid).getD c (0, 0),
                ts)] })
        ∈ (tr.update proposals detections ts).objects) := by
  have hobj : tr.objects ≠ [] := fun he => by rw [he] at hr; simp at hr
  have htc : (tr.objects.map (fun p => p.2.centroid)).getD r (0, 0)
      = t.centroid := by
    show ((tr.objects.map (fun p => p.2.centroid)).get? r).getD (0, 0) = _
    have hgi : tr.objects[r]? = some (id, t) := by
      rw [← List.get?_eq_getElem?]
      exact hr
    rw [List.get?_eq_getElem?, List.getElem?_map, hgi]
    rfl
  have hpair : (r, c) ∉ acceptedPairs tr.max_distance
      (tr.objects.map (fun p => p.2.centroid))
      (detections.map BBox.centroid) proposals := by
    intro hx
    have hp := List.of_mem_filter hx
    simp only [Bool.and_eq_true, decide_eq_true_eq] at hp
    rw [htc] at hp
    exact absurd hp.2 (not_le.mpr hfar)
  have hnoacc : (acceptedPairs tr.max_distance
      (tr.objects.map (fun p => p.2.centroid))
      (detections.map BBox.centroid) proposals).filter
      (fun rc => rc.1 = r) = [] := by
    rw [List.filter_eq_nil]
    intro rc hrc
    simp only [decide_eq_true_eq]
    intro hr1
    have hrcp : rc ∈ proposals := List.mem_of_mem_filter hrc
    have hmm : (r, rc.2) ∈ proposals := by
      rw [← hr1]
      exact hrcp
    have hrc2 : rc.2 = c := assoc_nodup_eq hrows hmm hmem
    have hrceq : rc = (r, c) := by rw [← hr1, ← hrc2]
    rw [hrceq] at hrc
    exact hpair hrc
  have hcuse : c ∉ (acceptedPairs tr.max_distance
      (tr.objects.map (fun p => p.2.centroid))
      (detections.map BBox.centroid) proposals).map (fun rc => rc.2) := by
    intro hx
    obtain ⟨rc, hrc, hrc2⟩ := List.mem_map.mp hx
    have hrcp : rc ∈ proposals := List.mem_of_mem_filter hrc
    have hsw : ((proposals.map Prod.swap).map Prod.fst).Nodup := by
      rw [List.map_map]
      exact hcols
    have h1 : (c, rc.1) ∈ proposals.map Prod.swap := by
      rw [← hrc2]
      exact List.mem_map_of_mem Prod.swap hrcp
    have h2 : (c, r) ∈ proposals.map Prod.swap :=
      List.mem_map_of_mem Prod.swap hmem
    have hfst : rc.1 = r := assoc_nodup_eq hsw h1 h2
    have hrceq : rc = (r, c) := by rw [← hfst, ← hrc2]
    rw [hrceq] at hrc
    exact hpair hrc
  have hcunused : c ∈ unusedCols (acceptedPairs tr.max_distance
      (tr.objects.map (fun p => p.2.centroid))
      (detections.map BBox.centroid) proposals)
      (detections.map BBox.centroid).length := by
    unfold unusedCols
    rw [List.mem_filter]
    refine ⟨List.mem_range.mpr (by rw [List.length_map]; exact hc), ?_⟩
    simpa using hcuse
  refine ⟨update_unmatched_row tr proposals detections ts r id t hdet hr
    hnd hbound hnoacc, ?_⟩
  rw [update_objects_eq tr proposals detections ts hdet hobj]
  obtain ⟨nid, hge, hmem2⟩ := newEntries_mem (detections.map BBox.centroid)
    detections ts _ tr.next_object_id c hcunused
  exact ⟨nid, hge, List.mem_append_right _ hmem2⟩

/-- Witness for C3 (amended): a track at (0,0) and a detection at
(151,0), distance 151 > 150: the proposed pair is rejected, the track's
counter rises to 1 and the detection registers as new track 1. -/
theorem rejected_pair_unmatched_witness :
    ((0, { centroid := (0, 0), bbox := ⟨0, 0, 0, 0⟩, disappeared := 1,
           history := [((0, 0), 0)] }) ∈ (CentroidTracker.update
        { next_object_id := 1,
          objects := [(0, { centroid := (0, 0), bbox := ⟨0, 0, 0, 0⟩,
                            disappeared := 0, history := [((0, 0), 0)] })],
          max_disappeared := 30, max_distance := 150 }
        [(0, 0)] [⟨101, 0, 100, 0⟩] 1).objects) ∧
    (∃ nid, 1 ≤ nid ∧
      (nid, { centroid := (151, 0), bbox := ⟨101, 0, 100, 0⟩,
              disappeared := 0, history := [((151, 0), 1)] })
        ∈ (CentroidTracker.update
        { next_object_id := 1,
          objects := [(0, { centroid := (0, 0), bbox := ⟨0, 0, 0, 0⟩,
                            disappeared := 0, history := [((0, 0), 0)] })],
          max_disappeared := 30, max_distance := 150 }
        [(0, 0)] [⟨101, 0, 100, 0⟩] 1).objects) := by
  have h := rejected_pair_unmatched
    { next_object_id := 1,
      objects := [(0, { centroid := (0, 0), bbox := ⟨0, 0, 0, 0⟩,
                        disappeared := 0, history := [((0, 0), 0)] })],
      max_disappeared := 30, max_distance := 150 }
    [(0, 0)] [⟨101, 0, 100, 0⟩] 1 0 0 0
    { centroid := (0, 0), bbox := ⟨0, 0, 0, 0⟩, disappeared := 0,
      history := [((0, 0), 0)] }
    (by simp) rfl (by decide) (by decide) (by decide) (by decide)
    (by decide) (by decide) (by decide)
  exact ⟨h.1.1 (by decide), h.2⟩

/-- C6: for a track that goes unmatched on consecutive calls to `update`,
the disappearance counter increments once per unmatched call and the
track is deregistered on exactly the call at which it first exceeds
`max_disappeared` (i.e. after `max_disappeared + 1` consecutive unmatched
updates) — not one call before, not one after; until then it stays in the
active set.  Part one states this for a run of detection-less calls; part
two characterizes a single call with detections present in which no
accepted pair proposes the track's row. -/
theorem deregistration_timing :
    (∀ (tr : CentroidTracker) (calls : List (List (ℕ × ℕ) × ℚ)) (id : ℕ)
        (t : TrackRec),
      (tr.objects.map Prod.fst).Nodup → (id, t) ∈ tr.objects →
      t.disappeared ≤ tr.max_disappeared →
      ((id ∈ (updateRun tr calls).objects.map Prod.fst ↔
          t.disappeared + calls.length ≤ tr.max_disappeared) ∧
       (t.disappeared + calls.length ≤ tr.max_disappeared →
          (id, { t with disappeared := t.disappeared + calls.length })
            ∈ (updateRun tr calls).objects))) ∧
    (∀ (tr : CentroidTracker) (proposals : List (ℕ × ℕ))
        (detections : List BBox) (ts : ℚ) (r id : ℕ) (t : TrackRec),
      detections ≠ [] → tr.objects.get? r = some (id, t) →
      (tr.objects.map Prod.fst).Nodup →
      (∀ k ∈ tr.objects.map Prod.fst, k < tr.next_object_id) →
      (acceptedPairs tr.max_distance
        (tr.objects.map (fun p => p.2.centroid))
        (detections.map BBox.centroid) proposals).filter
        (fun rc => rc.1 = r) = [] →
      ((t.disappeared + 1 ≤ tr.max_disappeared →
          (id, { t with disappeared := t.disappeared + 1 })
            ∈ (tr.update proposals detections ts).objects) ∧
       (tr.max_disappeared < t.disappeared + 1 →
          id ∉ (tr.update proposals detections ts).objects.map Prod.fst))) :=
  ⟨fun tr calls id t hnd hmem hd =>
      deregistration_run tr calls id t hnd hmem hd,
   fun tr proposals detections ts r id t hdet hr hnd hbound hnoacc =>
      update_unmatched_row tr proposals detections ts r id t hdet hr hnd
        hbound hnoacc⟩

/-- Witness for C6: with patience 2, a track unmatched on 3 consecutive
empty frames is gone while after 2 it survives with counter 2; and on a
frame with a far-away detection and no proposal for its row, a track's
counter rises from 0 to 1. -/
theorem deregistration_timing_witness :
    (0 ∉ (updateRun
        { next_object_id := 1,
          objects := [(0, { centroid := (0, 0), bbox := ⟨0, 0, 0, 0⟩,
                            disappeared := 0, history := [((0, 0), 0)] })],
          max_disappeared := 2, max_distance := 150 }
        [([], 0), ([], 0), ([], 0)]).objects.map Prod.fst) ∧
    ((0, { centroid := (0, 0), bbox := ⟨0, 0, 0, 0⟩, disappeared := 2,
           history := [((0, 0), 0)] }) ∈ (updateRun
        { next_object_id := 1,
          objects := [(0, { centroid := (0, 0), bbox := ⟨0, 0, 0, 0⟩,
                            disappeared := 0, history := [((0, 0), 0)] })],
          max_disappeared := 2, max_distance := 150 }
        [([], 0), ([], 0)]).objects) ∧
    ((0, { centroid := (0, 0), bbox := ⟨0, 0, 0, 0⟩, disappeared := 1,
           history := [((0, 0), 0)] }) ∈ (CentroidTracker.update
        { next_object_id := 1,
          objects := [(0, { centroid := (0, 0), bbox := ⟨0, 0, 0, 0⟩,
                            disappeared := 0, history := [((0, 0), 0)] })],
          max_disappeared := 30, max_distance := 150 }
        [] [⟨500, 0, 0, 0⟩] 1).objects) := by
  refine ⟨?_, ?_, ?_⟩
  · intro h
    have := (deregistration_timing.1
      { next_object_id := 1,
        objects := [(0, { centroid := (0, 0), bbox := ⟨0, 0, 0, 0⟩,
                          disappeared := 0, history := [((0, 0), 0)] })],
        max_disappeared := 2, max_distance := 150 }
      [([], 0), ([], 0), ([], 0)] 0
      { centroid := (0, 0), bbox := ⟨0, 0, 0, 0⟩, disappeared := 0,
        history := [((0, 0), 0)] }
      (by decide) (by decide) (by decide)).1.mp h
    exact absurd this (by decide)
  · exact (deregistration_timing.1
      { next_object_id := 1,
        objects := [(0, { centroid := (0, 0), bbox := ⟨0, 0, 0, 0⟩,
                          disappeared := 0, history := [((0, 0), 0)] })],
        max_disappeared := 2, max_distance := 150 }
      [([], 0), ([], 0)] 0
      { centroid := (0, 0), bbox := ⟨0, 0, 0, 0⟩, disappeared := 0,
        history := [((0, 0), 0)] }
      (by decide) (by decide) (by decide)).2 (by decide)
  · exact (deregistration_timing.2
      { next_object_id := 1,
        objects := [(0, { centroid := (0, 0), bbox := ⟨0, 0, 0, 0⟩,
                          disappeared := 0, history := [((0, 0), 0)] })],
        max_disappeared := 30, max_distance := 150 }
      [] [⟨500, 0, 0, 0⟩] 1 0 0
      { centroid := (0, 0), bbox := ⟨0, 0, 0, 0⟩, disappeared := 0,
        history := [((0, 0), 0)] }
      (by simp) rfl (by decide) (by decide) rfl).1 (by decide)

end StopSuperSpeeders
